import Mathlib

/-!
Verification of the pipeline execution engine of the `model-context-shell`
repository: a shallow embedding, in Lean 4, of `shell_engine.py`,
`mcp_client.py` (the batch tool caller), `models.py` (the pydantic stage
models) and `toolhive_client.py` (discovery caching), together with theorems
settling the frozen specification claims.

Python strings are modelled as `List Char` (`PyStr`); Python dicts produced by
`json.loads` as insertion-ordered association lists; exceptions as a message
plus an optional `__cause__` chain; the external effects (the `json.loads`
parser, the subprocess runner, the remote tool session) are parameters of the
definitions, so every theorem quantifies over their behaviour.
-/

/-- Python strings, modelled as lists of characters. -/
abbrev PyStr := List Char

/-- Convert a Lean string literal to the `PyStr` model. -/
def pys (s : String) : PyStr := s.toList

/-- The whitespace characters stripped by Python's `str.strip()`
(space, tab, newline, carriage return, vertical tab, form feed). -/
def isPySpace (c : Char) : Bool :=
  c == ' ' || c == '\t' || c == '\n' || c == '\r' || c == '\x0b' || c == '\x0c'

/-- Python `s.strip()`: drop leading and trailing whitespace. -/
def pyStrip (s : PyStr) : PyStr :=
  ((s.dropWhile isPySpace).reverse.dropWhile isPySpace).reverse

/-- `not line.strip()` in Python: the line is empty or all whitespace. -/
def isBlank (s : PyStr) : Bool := s.all isPySpace

/-- Python `"".join(chunks)`. -/
def joinAll (chunks : List PyStr) : PyStr := chunks.flatten

/-- Python `"\n".join(parts)`. -/
def joinNl : List PyStr → PyStr
  | [] => []
  | [p] => p
  | p :: q :: rest => p ++ '\n' :: joinNl (q :: rest)

/-- `pat` occurs as a contiguous substring of `s` (Python `pat in s`). -/
def containsSub (pat : PyStr) : PyStr → Bool
  | [] => pat.isPrefixOf []
  | c :: rest => pat.isPrefixOf (c :: rest) || containsSub pat rest

/-- Decimal rendering of a natural number, as a `PyStr`. -/
def natChars (n : Nat) : PyStr := (Nat.repr n).toList

/-- Decimal rendering of an integer (Python prints `returncode` this way). -/
def intChars (z : Int) : PyStr := (Int.repr z).toList

/-!
## Line splitting

`buffer.split("\n", 1)` applied repeatedly while `"\n" in buffer` peels off
every complete line and leaves the final partless tail; this is exactly
`buffer.split("\n")` with all parts but the last as the complete lines and the
last part as the new buffer.  We model Python's `s.split("\n")` on `PyStr`.
-/

/-- One step of Python's `split("\n")` viewed as a right fold. -/
def splitNlStep (c : Char) (r : List PyStr) : List PyStr :=
  if c = '\n' then [] :: r else (c :: r.headD []) :: r.tail

/-- Python `s.split("\n")`: the empty string gives `[""]`, and each newline
adds one part. -/
def splitNl (s : PyStr) : List PyStr := s.foldr splitNlStep [[]]

/-!
## Incremental line framing (the `for_each` buffer loop)

`shell_engine.tool_stage` (fan-out) and `shell_engine.shell_stage` (fan-out)
frame their chunked upstream identically: a string buffer accumulates chunks;
`while "\n" in buffer` peels complete lines, each complete line bumps
`line_num` and blank lines are skipped; at the end a non-blank leftover buffer
is processed as one final line.
-/

/-- State of the fan-out framing loop: the partial-line buffer, the running
`line_num`, and the numbered non-blank lines emitted so far (in order). -/
structure FanAcc where
  buffer : PyStr
  lineNum : Nat
  lines : List (Nat × PyStr)
deriving Repr

/-- Number the lines `ps` continuing from counter `n` (each line first bumps
`line_num`, then `if not line.strip(): continue` skips blank lines): the body
of `while "\n" in buffer` for one batch of complete lines. -/
def numberNonBlank (n : Nat) : List PyStr → List (Nat × PyStr)
  | [] => []
  | p :: ps =>
      if isBlank p then numberNonBlank (n + 1) ps
      else (n + 1, p) :: numberNonBlank (n + 1) ps

/-- `buffer += chunk` followed by draining every complete line
(`while "\n" in buffer: line, buffer = buffer.split("\n", 1); …`). -/
def feedChunk (st : FanAcc) (chunk : PyStr) : FanAcc :=
  let parts := splitNl (st.buffer ++ chunk)
  { buffer := parts.getLastD []
    lineNum := st.lineNum + (parts.length - 1)
    lines := st.lines ++ numberNonBlank st.lineNum parts.dropLast }

/-- End of upstream: `if buffer.strip(): line_num += 1; …` processes the final
line lacking a trailing newline. -/
def finishFan (st : FanAcc) : List (Nat × PyStr) :=
  if isBlank st.buffer then st.lines else st.lines ++ [(st.lineNum + 1, st.buffer)]

/-- The numbered non-blank lines the fan-out loop sees in a chunked upstream,
exactly as `ShellEngine.tool_stage` (for_each) frames them. -/
def fanLines (chunks : List PyStr) : List (Nat × PyStr) :=
  finishFan (chunks.foldl feedChunk ⟨[], 0, []⟩)

/-- The same lines computed from the joined upstream text in one pass:
number every part of `S.split("\n")` from 1 and keep the non-blank parts. -/
def framedOfText (s : PyStr) : List (Nat × PyStr) :=
  numberNonBlank 0 (splitNl s)

/-- Invariant of the framing state after the loop has consumed chunks joining
to `s`: the buffer holds the last part of `s.split("\n")`, `line_num` counts
the complete parts, and the emitted lines are the numbered non-blank complete
parts. -/
def fanInv (s : PyStr) (st : FanAcc) : Prop :=
  st.buffer = (splitNl s).getLastD [] ∧
  st.lineNum = (splitNl s).length - 1 ∧
  st.lines = numberNonBlank 0 (splitNl s).dropLast

/-!
## JSON values, dicts, tool results, exceptions

`json.loads` is external to the repository; it is a parameter
`parse : PyStr → Option Json` of the stage definitions (`none` models
`json.JSONDecodeError`).  Dicts keep insertion order, as Python dicts do.
-/

/-- The JSON values `json.loads` can return (numbers collapsed to `Int`;
the claims never depend on float payloads). -/
inductive Json where
  | null
  | bool (b : Bool)
  | num (n : Int)
  | str (s : PyStr)
  | arr (elems : List Json)
  | obj (entries : List (PyStr × Json))

/-- A Python dict with string keys, in insertion order. -/
abbrev Obj := List (PyStr × Json)

/-- `isinstance(v, dict)`. -/
def Json.isObj : Json → Bool
  | .obj _ => true
  | _ => false

/-- `type(v).__name__` for the values `json.loads` returns. -/
def pyTypeName : Json → PyStr
  | .null => ("NoneType").toList
  | .bool _ => ("bool").toList
  | .num _ => ("int").toList
  | .str _ => ("str").toList
  | .arr _ => ("list").toList
  | .obj _ => ("dict").toList

/-- Key membership: Python `k in d`. -/
def keyMem (k : PyStr) (d : Obj) : Bool := d.any (fun kv => kv.1 == k)

/-- Key lookup: Python `d[k]` (first binding; dict keys are unique). -/
def lookupKey (d : Obj) (k : PyStr) : Option Json :=
  (d.find? (fun kv => kv.1 == k)).map (fun kv => kv.2)

/-- Python `{**u, **a}`: keys of `u` in order (values overridden by `a` on
conflict), then the keys of `a` not in `u`, in order. `a` wins every
conflict. -/
def dictMerge (u a : Obj) : Obj :=
  (u.map (fun kv =>
    match lookupKey a kv.1 with
    | some v => (kv.1, v)
    | none => kv)) ++
  a.filter (fun kv => ! keyMem kv.1 u)

/-- Python `{**a, "input": v}` guarded by `if "input" not in args` in the
engine: append the binding when absent. -/
def bindInput (a : Obj) (v : Json) : Obj :=
  if keyMem (("input").toList) a then a else a ++ [((("input").toList), v)]

/-- A content item of a `ToolResult`: either it carries a `.text` payload or
it does not. -/
inductive ContentItem where
  | textItem (text : PyStr)
  | noText

/-- A remote tool call result: an optional `.content` sequence (absent models
`not hasattr(result, "content")`) plus the `str(result)` rendering used as
fallback. -/
structure ToolResult where
  content : Option (List ContentItem)
  strRepr : PyStr

/-- The `.text` payloads of a result's content items, in order; `str(result)`
when there is no content attribute.  This is the accumulation the fan-out
paths of `tool_stage` and the batch error report perform per result. -/
def extractTexts (r : ToolResult) : List PyStr :=
  match r.content with
  | some items => items.filterMap (fun i =>
      match i with
      | .textItem t => some t
      | .noText => none)
  | none => [r.strRepr]

/-- The non-fan-out extraction of `tool_stage`: return the text of the
*first* content item carrying one (the `return` inside the loop), falling
back to `str(result)` when there is no content attribute or no item carries
text. -/
def extractFirstText (r : ToolResult) : PyStr :=
  match r.content with
  | some items =>
      match items.findSome? (fun i =>
        match i with
        | .textItem t => some t
        | .noText => none) with
      | some t => t
      | none => r.strRepr
  | none => r.strRepr

/-- A Python exception: its `str(e)` message and its `__cause__` chain. -/
inductive PyErr where
  | mk (msg : PyStr) (cause : Option PyErr)

/-- `str(e)`. -/
def PyErr.msg : PyErr → PyStr
  | .mk m _ => m

/-- `e.__cause__`. -/
def PyErr.cause : PyErr → Option PyErr
  | .mk _ c => c

/-- The unwrap loop of `tool_stage`: `error_msg = str(e); cause = e.__cause__;
while cause: error_msg = str(cause); cause = cause.__cause__`. -/
def rootMsg : PyErr → PyStr
  | .mk m none => m
  | .mk _ (some c) => rootMsg c

/-!
## `json.dumps`

Used by the engine in two error messages: the non-object fan-out line error
(`json.dumps(parsed_line)[:100]`) and the per-line fallback error
(`json.dumps(call_args, indent=2)`).  Default separators are `", "` and
`": "`; we model the escaping of the characters the engine's data can
contain (backslash, quote, and the common control characters; `ensure_ascii`
hex escapes of other code points are not modelled).
-/

/-- JSON string escaping for one character. -/
def escChar (c : Char) : PyStr :=
  if c = '\\' then ('\\' :: ['\\'])
  else if c = '"' then ('\\' :: ['"'])
  else if c = '\n' then ('\\' :: ['n'])
  else if c = '\t' then ('\\' :: ['t'])
  else if c = '\r' then ('\\' :: ['r'])
  else [c]

/-- JSON string literal rendering. -/
def escStr (s : PyStr) : PyStr := '"' :: s.flatMap escChar ++ ['"']

mutual

/-- `json.dumps(v)` with default separators. -/
def dumps : Json → PyStr
  | .null => ("null").toList
  | .bool true => ("true").toList
  | .bool false => ("false").toList
  | .num n => intChars n
  | .str s => escStr s
  | .arr es => '[' :: dumpsElems es ++ [']']
  | .obj kvs => '\x7b' :: dumpsEntries kvs ++ ['\x7d']

/-- Array elements joined by `", "`. -/
def dumpsElems : List Json → PyStr
  | [] => []
  | [e] => dumps e
  | e :: e' :: rest => dumps e ++ (", ").toList ++ dumpsElems (e' :: rest)

/-- Object entries `"k": v` joined by `", "`. -/
def dumpsEntries : List (PyStr × Json) → PyStr
  | [] => []
  | [(k, v)] => escStr k ++ (": ").toList ++ dumps v
  | (k, v) :: kv' :: rest =>
      escStr k ++ (": ").toList ++ dumps v ++ (", ").toList ++ dumpsEntries (kv' :: rest)

end

/-- 2-space indentation at nesting level `lvl`. -/
def indSpaces (lvl : Nat) : PyStr := List.replicate (2 * lvl) ' '

mutual

/-- `json.dumps(v, indent=2)` rendered at nesting level `lvl`. -/
def dumpsInd : Nat → Json → PyStr
  | _, .null => ("null").toList
  | _, .bool true => ("true").toList
  | _, .bool false => ("false").toList
  | _, .num n => intChars n
  | _, .str s => escStr s
  | _, .arr [] => ("[]").toList
  | lvl, .arr (e :: es) =>
      '[' :: '\n' :: dumpsIndElems (lvl + 1) (e :: es) ++
        '\n' :: indSpaces lvl ++ [']']
  | _, .obj [] => ("\x7b\x7d").toList
  | lvl, .obj (kv :: kvs) =>
      '\x7b' :: '\n' :: dumpsIndEntries (lvl + 1) (kv :: kvs) ++
        '\n' :: indSpaces lvl ++ ['\x7d']

/-- Indented array elements joined by `",\n"`. -/
def dumpsIndElems : Nat → List Json → PyStr
  | _, [] => []
  | lvl, [e] => indSpaces lvl ++ dumpsInd lvl e
  | lvl, e :: e' :: rest =>
      indSpaces lvl ++ dumpsInd lvl e ++ ',' :: '\n' :: dumpsIndElems lvl (e' :: rest)

/-- Indented object entries joined by `",\n"`. -/
def dumpsIndEntries : Nat → List (PyStr × Json) → PyStr
  | _, [] => []
  | lvl, [(k, v)] => indSpaces lvl ++ escStr k ++ (": ").toList ++ dumpsInd lvl v
  | lvl, (k, v) :: kv' :: rest =>
      indSpaces lvl ++ escStr k ++ (": ").toList ++ dumpsInd lvl v ++
        ',' :: '\n' :: dumpsIndEntries lvl (kv' :: rest)

end

/-!
## The fan-out tool stage (`ShellEngine.tool_stage`, `for_each=True`) and the
batch caller (`mcp_client.batch_call_tool`)

Every definition also returns the list of argument dicts for which a remote
tool call was actually issued (the call trace), so that "no call is issued"
claims are statable.
-/

/-- Error message for a line that fails `json.loads` in fan-out mode. -/
def invalidJsonMsg (n : Nat) (line : PyStr) : PyStr :=
  ("Line ").toList ++ natChars n ++
  (": Invalid JSON in for_each mode. Tools with for_each require JSONL input (one JSON object per line). Got: ").toList ++
  line.take 100 ++
  ("... Use jq to structure your data correctly. For example, if the tool needs 'url' parameter: jq -c '.[] | \x7burl: .\x7d'").toList

/-- Error message for a line that parses to a non-object JSON value in
fan-out mode (note: it quotes `json.dumps(parsed_line)[:100]`, not the raw
line). -/
def nonObjectMsg (n : Nat) (v : Json) : PyStr :=
  ("Line ").toList ++ natChars n ++
  (": Expected JSON object, got ").toList ++ pyTypeName v ++
  (". Tools require parameter names. Got: ").toList ++
  (dumps v).take 100 ++
  ("... Transform your data into objects, e.g.: jq -c '\x7bparam_name: .\x7d'").toList

/-- Parse one framed fan-out line: require a JSON object and merge it with
the caller args (`{**parsed_line, **args}`). -/
def parseFanLine (parse : PyStr → Option Json) (args : Obj) (nl : Nat × PyStr) :
    Except PyErr Obj :=
  match parse nl.2 with
  | none => .error (.mk (invalidJsonMsg nl.1 nl.2) none)
  | some (.obj u) => .ok (dictMerge u args)
  | some v => .error (.mk (nonObjectMsg nl.1 v) none)

/-- Collect the per-line call arguments (`all_call_args`), stopping at the
first bad line — the collection phase runs before any tool call. -/
def parseAllLines (parse : PyStr → Option Json) (args : Obj) :
    List (Nat × PyStr) → Except PyErr (List (Nat × Obj))
  | [] => .ok []
  | nl :: rest =>
      match parseFanLine parse args nl with
      | .error e => .error e
      | .ok ca =>
          match parseAllLines parse args rest with
          | .error e => .error e
          | .ok rest' => .ok ((nl.1, ca) :: rest')

/-- The three always-present lines of the `execute_calls` error message. -/
def batchErrParts (failedItem total completed pending : Nat) (emsg : PyStr) :
    List PyStr :=
  [("Batch tool call failed at item ").toList ++ natChars failedItem ++
     (" of ").toList ++ natChars total ++ (".").toList,
   ("Completed: ").toList ++ natChars completed ++ (" successful, ").toList ++
     natChars pending ++ (" pending.").toList,
   ("Error: ").toList ++ emsg]

/-- The progress-reporting error message of `batch_call_tool.execute_calls`:
the three progress lines, the partial-results section when any call
succeeded, joined by newlines. -/
def batchErrMsg (failedItem total completed pending : Nat) (emsg : PyStr)
    (partials : List PyStr) : PyStr :=
  if partials.isEmpty then
    joinNl (batchErrParts failedItem total completed pending emsg)
  else
    joinNl (batchErrParts failedItem total completed pending emsg ++
      [("Partial results from successful calls:\n").toList ++ joinNl partials])

/-- `execute_calls` of `mcp_client.batch_call_tool`: issue the calls in order
on one session; a failure at index `idx` raises the progress-reporting error
(chained `from` the underlying exception).  Returns the call trace and the
results. -/
def execCallsFrom (call : Obj → Except PyErr ToolResult) (total : Nat) :
    Nat → List ToolResult → List Obj → List Obj × Except PyErr (List ToolResult)
  | _, done, [] => ([], .ok done)
  | idx, done, a :: rest =>
      match call a with
      | .ok r =>
          let step := execCallsFrom call total (idx + 1) (done ++ [r]) rest
          (a :: step.1, step.2)
      | .error e =>
          ([a],
           .error (.mk
             (batchErrMsg (idx + 1) total done.length (total - idx - 1) e.msg
               (done.flatMap extractTexts))
             (some e)))

/-- `mcp_client.batch_call_tool` restricted to its session loop (an empty
argument list returns `[]` without opening a connection). -/
def batchExecuteCalls (call : Obj → Except PyErr ToolResult) (argsList : List Obj) :
    List Obj × Except PyErr (List ToolResult) :=
  execCallsFrom call argsList.length 0 [] argsList

/-- The engine-side wrapper message when the batch caller fails
(the cause chain is unwrapped to its *root* message). -/
def batchFailedMsg (server tool : PyStr) (e : PyErr) : PyStr :=
  ("Batch tool call failed for ").toList ++ server ++ '/' :: tool ++
  (". Error: ").toList ++ rootMsg e

/-- Engine-side per-line error message of the non-batch fallback loop. -/
def lineToolFailedMsg (n : Nat) (server tool : PyStr) (callArgs : Obj)
    (emsg : PyStr) : PyStr :=
  ("Line ").toList ++ natChars n ++ (": Tool call failed for ").toList ++
  server ++ '/' :: tool ++ (". Args used: ").toList ++
  dumpsInd 0 (.obj callArgs) ++ (". Error: ").toList ++ emsg

/-- The fallback loop of fan-out `tool_stage` when no batch caller is
available: call the tool once per line, accumulating content texts. -/
def fallbackLoop (caller : Obj → Except PyErr ToolResult) (server tool : PyStr) :
    List (Nat × Obj) → List Obj × Except PyErr (List PyStr)
  | [] => ([], .ok [])
  | (n, ca) :: rest =>
      match caller ca with
      | .error e =>
          ([ca], .error (.mk (lineToolFailedMsg n server tool ca (rootMsg e)) (some e)))
      | .ok r =>
          let step := fallbackLoop caller server tool rest
          (ca :: step.1,
           match step.2 with
           | .ok texts => .ok (extractTexts r ++ texts)
           | .error e => .error e)

/-- `ShellEngine.tool_stage` with `for_each=True`: frame the chunked upstream
into lines, require JSON objects, merge each with the caller args, dispatch
through the batch caller when available (else the fallback loop), and join
the per-call content texts with newlines. -/
def toolStageForEach (parse : PyStr → Option Json)
    (batchCall : Option (List Obj → List Obj × Except PyErr (List ToolResult)))
    (caller : Obj → Except PyErr ToolResult)
    (server tool : PyStr) (args : Obj) (chunks : List PyStr) :
    List Obj × Except PyErr PyStr :=
  match parseAllLines parse args (fanLines chunks) with
  | .error e => ([], .error e)
  | .ok allCallArgs =>
      match batchCall with
      | some bc =>
          if allCallArgs.isEmpty then
            ([], .ok [])
          else
            let step := bc (allCallArgs.map (fun p => p.2))
            (step.1,
             match step.2 with
             | .ok rs => .ok (joinNl (rs.flatMap extractTexts))
             | .error e => .error (.mk (batchFailedMsg server tool e) (some e)))
      | none =>
          let step := fallbackLoop caller server tool allCallArgs
          (step.1,
           match step.2 with
           | .ok texts => .ok (joinNl texts)
           | .error e => .error e)

/-!
## The non-fan-out tool stage
-/

/-- The effective call arguments of `tool_stage` without `for_each`: join and
strip the upstream; an object merges (`{**parsed_input, **args}`), any other
JSON value — or unparseable text — binds to `"input"` unless present; empty
stripped upstream leaves `args` untouched. -/
def singleEffectiveArgs (parse : PyStr → Option Json) (args : Obj)
    (chunks : List PyStr) : Obj :=
  let inputData := pyStrip (joinAll chunks)
  if inputData.isEmpty then args
  else
    match parse inputData with
    | some (.obj u) => dictMerge u args
    | some v => bindInput args v
    | none => bindInput args (.str inputData)

/-- `ShellEngine.tool_stage` with `for_each=False`: one call with the
effective arguments; the result's first text payload (or `str(result)`)
is the stage output. -/
def toolStageSingle (parse : PyStr → Option Json)
    (caller : Obj → Except PyErr ToolResult) (args : Obj) (chunks : List PyStr) :
    List Obj × Except PyErr PyStr :=
  let args' := singleEffectiveArgs parse args chunks
  match caller args' with
  | .ok r => ([args'], .ok (extractFirstText r))
  | .error e => ([args'], .error e)

/-!
## The shell stage (`ShellEngine.shell_stage`) and the sandbox runner

The subprocess is a parameter `run : cmd_list → stdin → timeout → RunOutcome`.
-/

/-- Outcome of `proc.communicate(input=…, timeout=…)`. -/
inductive RunOutcome where
  | completed (rc : Int) (out : PyStr) (err : PyStr)
  | timedOut

/-- Python `str.splitlines(keepends=True)` boundary characters. -/
def isLineBreak (c : Char) : Bool :=
  c == '\n' || c == '\r' || c == '\x0b' || c == '\x0c' || c == '\x1c' ||
  c == '\x1d' || c == '\x1e' || c == '\x85' || c == '\u2028' || c == '\u2029'

/-- Accumulator worker for `splitlines(keepends=True)`; `acc` holds the
current line reversed; `\r\n` is one boundary. -/
def splitKEAux (acc : PyStr) : PyStr → List PyStr
  | [] => if acc.isEmpty then [] else [acc.reverse]
  | '\r' :: '\n' :: rest => (acc.reverse ++ '\r' :: ['\n']) :: splitKEAux [] rest
  | c :: rest =>
      if isLineBreak c then (acc.reverse ++ [c]) :: splitKEAux [] rest
      else splitKEAux (c :: acc) rest

/-- Python `s.splitlines(keepends=True)`. -/
def splitKeepEnds (s : PyStr) : List PyStr := splitKEAux [] s

/-- Rendering of the float `timeout` value in error messages.  (Python
prints the `float` repr; the claims only inspect the constant prefix of
these messages, so the rational is rendered in a simple normal form.) -/
def ratRepr (q : ℚ) : PyStr :=
  if q.den = 1 then intChars q.num ++ (".0").toList
  else intChars q.num ++ '/' :: natChars q.den

/-- `f"timeout must be positive, got {timeout}"`. -/
def timeoutNotPositiveMsg (t : ℚ) : PyStr :=
  ("timeout must be positive, got ").toList ++ ratRepr t

/-- `f"Command '{cmd}' failed with exit code {…}. Stderr: {stderr.strip()}"`. -/
def cmdFailedMsg (cmd : PyStr) (rc : Int) (strippedErr : PyStr) : PyStr :=
  ("Command '").toList ++ cmd ++ ("' failed with exit code ").toList ++
  intChars rc ++ (". Stderr: ").toList ++ strippedErr

/-- `f"Command '{cmd}' timed out after {actual_timeout} seconds"`. -/
def cmdTimeoutMsg (cmd : PyStr) (t : ℚ) : PyStr :=
  ("Command '").toList ++ cmd ++ ("' timed out after ").toList ++ ratRepr t ++
  (" seconds").toList

/-- Interpretation of one completed/expired `communicate`: error iff the
exit code is non-zero AND stripped stdout is empty AND stripped stderr is
non-empty; otherwise yield `stdout.splitlines(keepends=True)`. -/
def shellResult (cmd : PyStr) (t : ℚ) (outcome : RunOutcome) :
    Except PyErr (List PyStr) :=
  match outcome with
  | .completed rc out err =>
      if rc != 0 && (pyStrip out).isEmpty && !(pyStrip err).isEmpty then
        .error (.mk (cmdFailedMsg cmd rc (pyStrip err)) none)
      else .ok (splitKeepEnds out)
  | .timedOut => .error (.mk (cmdTimeoutMsg cmd t) none)

/-- `bwrap_prefix + ["--"] + [cmd] + args` when sandboxed, `[cmd] + args`
inside a container (empty prefix). -/
def buildCmdList (bwrapPrefix : List PyStr) (cmd : PyStr) (args : List PyStr) :
    List PyStr :=
  if bwrapPrefix.isEmpty then cmd :: args
  else bwrapPrefix ++ ("--").toList :: cmd :: args

/-!
## Pipeline stages, validation, and the engine

The pydantic models of `models.py` with their constraints, and
`ShellEngine.execute_pipeline`.  Because shell stages are Python generators,
their bodies run only when the stream is pulled (by the next tool/preview
stage or by the final join); a `Pulled` value carries the spawn events that
fire on that pull and the fully-consumed data (an erroring upstream delivers
its exception to whichever stage pulls it).
-/

/-- `ToolStage` of `models.py`. -/
structure ToolStageM where
  name : PyStr
  server : PyStr
  args : Obj
  forEach : Bool

/-- `CommandStage` of `models.py` (note: `timeout` carries no constraint). -/
structure CommandStageM where
  command : PyStr
  args : List PyStr
  forEach : Bool
  timeout : Option ℚ

/-- `PreviewStage` of `models.py` (`chars: int = Field(default=3000, gt=0)`). -/
structure PreviewStageM where
  chars : Int

/-- The discriminated union `PipelineStage`. -/
inductive PStage where
  | tool (t : ToolStageM)
  | cmd (c : CommandStageM)
  | preview (p : PreviewStageM)

/-- Pydantic validation of a `ToolStage`: `min_length=1` on `name` and
`server`. -/
def validToolStage (t : ToolStageM) : Bool :=
  1 ≤ t.name.length && 1 ≤ t.server.length

/-- Pydantic validation of a `CommandStage`: `min_length=1` on `command`;
**no constraint on `timeout`**. -/
def validCommandStage (c : CommandStageM) : Bool :=
  1 ≤ c.command.length

/-- Pydantic validation of a `PreviewStage`: `chars` must be positive. -/
def validPreviewStage (p : PreviewStageM) : Bool :=
  0 < p.chars

/-- Validation of one stage of the discriminated union. -/
def validStage : PStage → Bool
  | .tool t => validToolStage t
  | .cmd c => validCommandStage c
  | .preview p => validPreviewStage p

/-- The validation the RPC adapter runs before the engine: every stage must
satisfy its pydantic model. -/
def validPipeline (stages : List PStage) : Bool := stages.all validStage

/-- Observable engine effects: a spawned child process (its full argv) or a
remote tool call. -/
inductive Event where
  | spawn (cmd : PyStr) (cmdList : List PyStr)
  | toolCall (server tool : PyStr) (args : Obj)

/-- A deferred inter-stage stream: the spawn events that fire when it is
pulled, and the fully-consumed chunk data or the exception the pull raises. -/
structure Pulled where
  events : List Event
  data : Except PyErr (List PyStr)

/-- External effect parameters of the engine. -/
structure EngineEnv where
  parse : PyStr → Option Json
  caller : PyStr → PyStr → Obj → Except PyErr ToolResult
  batchCall : Option (PyStr → PyStr → List Obj →
    List Obj × Except PyErr (List ToolResult))
  run : List PyStr → PyStr → ℚ → RunOutcome
  bwrapPrefix : List PyStr
  allowedCommands : List PyStr
  defaultTimeout : ℚ
  summarize : PyStr → Int → PyStr

/-- `f"Command '{cmd}' is not allowed. Allowed commands: {', '.join(…)}"`. -/
def joinCommaSpace (l : List PyStr) : PyStr :=
  match l with
  | [] => []
  | p :: rest => rest.foldl (fun acc q => acc ++ (", ").toList ++ q) p

/-- Message of `ShellEngine.validate_command`'s rejection. -/
def notAllowedMsg (cmd : PyStr) (allowed : List PyStr) : PyStr :=
  ("Command '").toList ++ cmd ++ ("' is not allowed. Allowed commands: ").toList ++
  joinCommaSpace allowed

/-- `ShellEngine.validate_command`: exact membership of the command token in
the allowlist. -/
def validateCommand (allowed : List PyStr) (cmd : PyStr) : Except PyErr Unit :=
  if cmd.isEmpty then .error (.mk (("Empty command").toList) none)
  else if allowed.contains cmd then .ok ()
  else .error (.mk (notAllowedMsg cmd allowed) none)

/-- Fan-out shell execution over framed lines: spawn one child per non-blank
line, feed it `line + "\n"`, apply the exit-code rule, concatenate output
lines; the first failing child aborts. -/
def shellForEachRun (run : List PyStr → PyStr → ℚ → RunOutcome)
    (cmdList : List PyStr) (cmd : PyStr) (t : ℚ) :
    List (Nat × PyStr) → List Event × Except PyErr (List PyStr)
  | [] => ([], .ok [])
  | (_, l) :: rest =>
      match shellResult cmd t (run cmdList (l ++ ['\n']) t) with
      | .error e => ([.spawn cmd cmdList], .error e)
      | .ok outLines =>
          let step := shellForEachRun run cmdList cmd t rest
          (.spawn cmd cmdList :: step.1,
           match step.2 with
           | .ok ls => .ok (outLines ++ ls)
           | .error e => .error e)

/-- The body of `shell_stage` after the timeout validation, at effective
timeout `t`.  In non-fan-out mode `Popen` spawns *before* the upstream is
joined. -/
def shellStageGo (run : List PyStr → PyStr → ℚ → RunOutcome)
    (bwrapPrefix : List PyStr) (t : ℚ) (cmd : PyStr) (args : List PyStr)
    (forEach : Bool) (up : Pulled) : Pulled :=
  let cmdList := buildCmdList bwrapPrefix cmd args
  if forEach then
    match up.data with
    | .error e => ⟨up.events, .error e⟩
    | .ok chunks =>
        let step := shellForEachRun run cmdList cmd t (fanLines chunks)
        ⟨up.events ++ step.1, step.2⟩
  else
    match up.data with
    | .error e => ⟨Event.spawn cmd cmdList :: up.events, .error e⟩
    | .ok chunks =>
        ⟨Event.spawn cmd cmdList :: up.events,
         shellResult cmd t (run cmdList (joinAll chunks) t)⟩

/-- `ShellEngine.shell_stage` as a deferred stream transformer.  The body is
a generator: the timeout check (`if timeout is not None and timeout <= 0`),
the spawn and the upstream join all happen on pull. -/
def shellStageDeferred (run : List PyStr → PyStr → ℚ → RunOutcome)
    (bwrapPrefix : List PyStr) (defaultTimeout : ℚ) (cmd : PyStr)
    (args : List PyStr) (forEach : Bool) (timeout : Option ℚ) (up : Pulled) :
    Pulled :=
  match timeout with
  | some t =>
      if t ≤ 0 then ⟨[], .error (.mk (timeoutNotPositiveMsg t) none)⟩
      else shellStageGo run bwrapPrefix t cmd args forEach up
  | none => shellStageGo run bwrapPrefix defaultTimeout cmd args forEach up

/-- Dispatch of one tool stage over materialized upstream chunks, tagging the
call trace with server and tool name. -/
def toolStageRun (env : EngineEnv) (t : ToolStageM) (chunks : List PyStr) :
    List Event × Except PyErr PyStr :=
  let res :=
    if t.forEach then
      toolStageForEach env.parse
        (env.batchCall.map (fun bc => bc t.server t.name))
        (env.caller t.server t.name) t.server t.name t.args chunks
    else
      toolStageSingle env.parse (env.caller t.server t.name) t.args chunks
  (res.1.map (fun a => Event.toolCall t.server t.name a), res.2)

/-- `f"Stage {idx+1} (command) failed: {…}"`. -/
def stageFailedCmdMsg (idx : Nat) (msg : PyStr) : PyStr :=
  ("Stage ").toList ++ natChars (idx + 1) ++ (" (command) failed: ").toList ++ msg

/-- `f"Stage {idx+1} (tool {server}/{name}) failed: {…}"`. -/
def stageFailedToolMsg (idx : Nat) (server name msg : PyStr) : PyStr :=
  ("Stage ").toList ++ natChars (idx + 1) ++ (" (tool ").toList ++ server ++
  '/' :: name ++ (") failed: ").toList ++ msg

/-- `f"Stage {idx+1} (preview) failed: {…}"`. -/
def stageFailedPreviewMsg (idx : Nat) (msg : PyStr) : PyStr :=
  ("Stage ").toList ++ natChars (idx + 1) ++ (" (preview) failed: ").toList ++ msg

/-- The preview envelope marking the summary as not valid JSON. -/
def previewEnvelope (preview : PyStr) : PyStr :=
  ("=== PREVIEW (not valid JSON, showing structure only) ===\n").toList ++
  preview ++ ("\n=== END PREVIEW ===\n").toList

/-- The stage loop of `ShellEngine.execute_pipeline`: shell stages defer,
tool and preview stages pull their upstream inside their own try block, the
final join pulls the last stream outside any stage try. -/
def runStages (env : EngineEnv) : Nat → Pulled → List PStage →
    List Event × Except PyErr PyStr
  | _, up, [] =>
      (up.events,
       match up.data with
       | .error e => .error e
       | .ok chunks => .ok (joinAll chunks))
  | idx, up, stage :: rest =>
      match stage with
      | .cmd c =>
          match validateCommand env.allowedCommands c.command with
          | .error e => ([], .error (.mk (stageFailedCmdMsg idx e.msg) none))
          | .ok _ =>
              runStages env (idx + 1)
                (shellStageDeferred env.run env.bwrapPrefix env.defaultTimeout
                  c.command c.args c.forEach c.timeout up) rest
      | .tool t =>
          match up.data with
          | .error e =>
              (up.events,
               .error (.mk (stageFailedToolMsg idx t.server t.name e.msg) none))
          | .ok chunks =>
              let step := toolStageRun env t chunks
              match step.2 with
              | .error e =>
                  (up.events ++ step.1,
                   .error (.mk (stageFailedToolMsg idx t.server t.name e.msg) none))
              | .ok s =>
                  let s' := if !s.isEmpty && s.getLast? != some '\n'
                            then s ++ ['\n'] else s
                  let next := runStages env (idx + 1) ⟨[], .ok [s']⟩ rest
                  (up.events ++ step.1 ++ next.1, next.2)
      | .preview p =>
          match up.data with
          | .error e =>
              (up.events, .error (.mk (stageFailedPreviewMsg idx e.msg) none))
          | .ok chunks =>
              let pv := previewEnvelope (env.summarize (joinAll chunks) p.chars)
              let next := runStages env (idx + 1) ⟨[], .ok [pv]⟩ rest
              (up.events ++ next.1, next.2)

/-- `f"Pipeline execution failed: {…}"`. -/
def pipelineFailedMsg (msg : PyStr) : PyStr :=
  ("Pipeline execution failed: ").toList ++ msg

/-- `ShellEngine.execute_pipeline`: run the stages from an empty upstream and
wrap any failure in the pipeline-level error. -/
def executePipeline (env : EngineEnv) (stages : List PStage) :
    List Event × Except PyErr PyStr :=
  let r := runStages env 0 ⟨[], .ok []⟩ stages
  (r.1,
   match r.2 with
   | .ok s => .ok s
   | .error e => .error (.mk (pipelineFailedMsg e.msg) (some e)))

/-- The fixed allowlist `ALLOWED_COMMANDS` of `shell_engine.py`. -/
def ALLOWED_COMMANDS : List PyStr :=
  [("grep").toList, ("jq").toList, ("sort").toList, ("uniq").toList,
   ("cut").toList, ("sed").toList, ("awk").toList, ("wc").toList,
   ("head").toList, ("tail").toList, ("tr").toList, ("date").toList,
   ("bc").toList, ("paste").toList, ("shuf").toList, ("join").toList,
   ("sleep").toList]

/-!
## Discovery caching (`toolhive_client.py`)

The module-level globals `_discovered_host` / `_discovered_port` and the two
entry points `discover_toolhive_async` and `discover_toolhive`.  The HTTP
probe `_is_toolhive_available` is a parameter; every probe performed is
recorded in a trace of `(host, port)` pairs.
-/

/-- `DEFAULT_HOST`. -/
def defaultHost : PyStr := ("127.0.0.1").toList

/-- `DEFAULT_PORT`. -/
def defaultPort : Int := 8080

/-- The container-host alias tried as a scan fallback. -/
def dockerHostAlias : PyStr := ("host.docker.internal").toList

/-- The module globals holding the cached discovery result (`None` at
import). -/
structure DiscoSt where
  discoveredHost : Option PyStr
  discoveredPort : Option Int

/-- Python truthiness of `_discovered_host`. -/
def truthyStr : Option PyStr → Bool
  | some s => !s.isEmpty
  | none => false

/-- Python truthiness of `_discovered_port`. -/
def truthyInt : Option Int → Bool
  | some p => p != 0
  | none => false

/-- `a or b` for an optional string against a default. -/
def orStr (a : Option PyStr) (b : PyStr) : PyStr :=
  match a with
  | some s => if s.isEmpty then b else s
  | none => b

/-- `a or b` for an optional port against a default. -/
def orInt (a : Option Int) (b : Int) : Int :=
  match a with
  | some p => if p = 0 then b else p
  | none => b

/-- External parameters of discovery: the environment variable, the probe
predicate, and (for the sync wrapper) whether an event loop is running. -/
structure DiscoEnv where
  envHost : Option PyStr
  avail : PyStr → Int → Bool
  runningLoop : Bool

/-- Arguments of `discover_toolhive_async`. -/
structure DiscoArgs where
  host : Option PyStr
  port : Option Int
  scanStart : Int
  scanEnd : Int
  skip : Bool

/-- The ports `range(scan_port_start, scan_port_end + 1)`. -/
def portRange (lo hi : Int) : List Int :=
  (List.range ((hi - lo + 1).toNat)).map (fun i => lo + (i : Int))

/-- Message of a failed scan of one host. -/
def scanNotFoundMsg (host : PyStr) (lo hi : Int) : PyStr :=
  ("ToolHive not found on ").toList ++ host ++ (" in port range ").toList ++
  intChars lo ++ '-' :: intChars hi ++ (". Is 'thv serve' running?").toList

/-- `_scan_for_toolhive_async`: probe every port of the range concurrently
(the trace holds them all) and return the lowest responding port. -/
def scanForToolhive (avail : PyStr → Int → Bool) (host : PyStr) (lo hi : Int) :
    List (PyStr × Int) × Except PyErr Int :=
  let ports := portRange lo hi
  (ports.map (fun p => (host, p)),
   match ports.find? (fun p => avail host p) with
   | some p => .ok p
   | none => .error (.mk (scanNotFoundMsg host lo hi) none))

/-- The candidate hosts of the port-`None` branch: the chosen host, loopback,
and the container-host alias (each added only when distinct). -/
def scanCandidates (host : PyStr) : List PyStr :=
  [host] ++ (if host = defaultHost then [] else [defaultHost]) ++
    (if host = dockerHostAlias then [] else [dockerHostAlias])

/-- The `for candidate in scan_hosts` loop: first host whose scan succeeds
wins; when all fail the last error is raised. -/
def scanHostsLoop (avail : PyStr → Int → Bool) (lo hi : Int) :
    List PyStr → List (PyStr × Int) × Except PyErr (PyStr × Int)
  | [] => ([], .error (.mk (("ToolHive not found").toList) none))
  | h :: rest =>
      let scan := scanForToolhive avail h lo hi
      match scan.2 with
      | .ok p => (scan.1, .ok (h, p))
      | .error e =>
          match rest with
          | [] => (scan.1, .error e)
          | _ :: _ =>
              let next := scanHostsLoop avail lo hi rest
              (scan.1 ++ next.1, next.2)

/-- `discover_toolhive_async`: cached fast path, then host resolution, then
skip / given-port-with-retries / scan-with-host-fallbacks; a success caches
the pair in the module globals. -/
def discoverAsync (env : DiscoEnv) (st : DiscoSt) (a : DiscoArgs) :
    List (PyStr × Int) × Except PyErr ((PyStr × Int) × DiscoSt) :=
  if truthyStr st.discoveredHost && truthyInt st.discoveredPort then
    ([], .ok ((st.discoveredHost.getD [], st.discoveredPort.getD 0), st))
  else
    let host := orStr a.host (env.envHost.getD defaultHost)
    if a.skip then
      let port := orInt a.port defaultPort
      ([], .ok ((host, port), ⟨some host, some port⟩))
    else
      match a.port with
      | some p =>
          if env.avail host p then
            -- found on the first of up to three attempts
            ([(host, p)], .ok ((host, p), ⟨some host, some p⟩))
          else
            -- three failed attempts (the probe is deterministic), then a
            -- scan of the given host only
            let scan := scanForToolhive env.avail host a.scanStart a.scanEnd
            ([(host, p), (host, p), (host, p)] ++ scan.1,
             match scan.2 with
             | .ok p' => .ok ((host, p'), ⟨some host, some p'⟩)
             | .error e => .error e)
      | none =>
          let loop := scanHostsLoop env.avail a.scanStart a.scanEnd
            (scanCandidates host)
          (loop.1,
           match loop.2 with
           | .ok hp => .ok (hp, ⟨some hp.1, some hp.2⟩)
           | .error e => .error e)

/-- `discover_toolhive` (sync wrapper): cached fast path; with a running
event loop fall back to argument/env/default values *without caching*;
otherwise run the async discovery. -/
def discoverSync (env : DiscoEnv) (st : DiscoSt) (a : DiscoArgs) :
    List (PyStr × Int) × Except PyErr ((PyStr × Int) × DiscoSt) :=
  if truthyStr st.discoveredHost && truthyInt st.discoveredPort then
    ([], .ok ((st.discoveredHost.getD [], st.discoveredPort.getD 0), st))
  else if env.runningLoop then
    ([], .ok ((orStr a.host (env.envHost.getD defaultHost),
               orInt a.port defaultPort), st))
  else discoverAsync env st a

/-- Concrete parser used by witnesses: recognizes a handful of fixed texts. -/
def parseW (s : PyStr) : Option Json :=
  if s = ("\x7b\"b\":2\x7d").toList then some (.obj [(("b").toList, .num 2)])
  else if s = ("\x7b\"u\":1\x7d").toList then some (.obj [(("u").toList, .num 1)])
  else if s = ("\x7b\"v\":2\x7d").toList then some (.obj [(("v").toList, .num 2)])
  else if s = ("[1,2]").toList then some (.arr [.num 1, .num 2])
  else none

/-- Concrete tool result used by witnesses. -/
def resultW : ToolResult :=
  ⟨some [ContentItem.textItem (("ok").toList)], ("repr").toList⟩

/-- Concrete caller used by witnesses. -/
def callerW : Obj → Except PyErr ToolResult := fun _ => .ok resultW

/-- A command-spawn event whose command token is in the allowlist (tool calls
are unconstrained). -/
def eventAllowed (allowed : List PyStr) : Event → Prop
  | .spawn cmd _ => allowed.contains cmd = true
  | .toolCall _ _ _ => True

/-- The engine environment used by witnesses. -/
def envW : EngineEnv :=
  ⟨parseW, fun _ _ => callerW, none, fun _ _ _ => .completed 0 [] [],
   [], ALLOWED_COMMANDS, 30, fun s _ => s⟩

/-- The five-record JSONL text of the C7 scenario. -/
def jsonl5 : PyStr :=
  ("\x7b\"id\":1\x7d\n\x7b\"id\":2\x7d\n\x7b\"id\":3\x7d\n\x7b\"id\":4\x7d\n\x7b\"id\":5\x7d").toList

/-- Parser for the C7 scenario lines. -/
def parseC7 (s : PyStr) : Option Json :=
  if s = ("\x7b\"id\":1\x7d").toList then some (.obj [(("id").toList, .num 1)])
  else if s = ("\x7b\"id\":2\x7d").toList then some (.obj [(("id").toList, .num 2)])
  else if s = ("\x7b\"id\":3\x7d").toList then some (.obj [(("id").toList, .num 3)])
  else if s = ("\x7b\"id\":4\x7d").toList then some (.obj [(("id").toList, .num 4)])
  else if s = ("\x7b\"id\":5\x7d").toList then some (.obj [(("id").toList, .num 5)])
  else none

/-- Session call of the C7 scenario: the record with `id = 3` fails. -/
def sessionC7 : Obj → Except PyErr ToolResult := fun a =>
  match lookupKey a (("id").toList) with
  | some (.num 3) => .error (.mk (("API rate limit exceeded").toList) none)
  | _ => .ok ⟨some [ContentItem.textItem (("r").toList)], ("res").toList⟩

/-- Engine environment of the C7 scenario: the first tool returns the JSONL
text, the batch caller runs `sessionC7` on one session. -/
def envC7 : EngineEnv :=
  ⟨parseC7,
   fun _ _ _ => .ok ⟨some [ContentItem.textItem jsonl5], ("res").toList⟩,
   some (fun _ _ l => batchExecuteCalls sessionC7 l),
   fun _ _ _ => .completed 0 [] [],
   [], ALLOWED_COMMANDS, 30, fun s _ => s⟩

/-- The C7 pipeline: a producer tool stage followed by a fan-out stage. -/
def pipeC7 : List PStage :=
  [PStage.tool ⟨("list").toList, ("api").toList, [], false⟩,
   PStage.tool ⟨("fetch").toList, ("http").toList, [], true⟩]

/-- The message of an error outcome (empty for success). -/
def errMsgOf {A : Type} : Except PyErr A → PyStr
  | .error e => e.msg
  | .ok _ => []

theorem isPrefixOf_append_self (p b : PyStr) : p.isPrefixOf (p ++ b) = true := by
  induction p with
  | nil => simp [List.isPrefixOf]
  | cons c cs ih => simp [List.isPrefixOf, ih]

/-- A block laid out verbatim inside a string is found by `containsSub`. -/
theorem containsSub_append_mid (p a b : PyStr) :
    containsSub p (a ++ (p ++ b)) = true := by
  induction a with
  | nil =>
      cases hp : p ++ b with
      | nil =>
          have : p = [] := by
            cases p with
            | nil => rfl
            | cons x xs => simp at hp
          simp [this, containsSub, List.isPrefixOf]
      | cons c cs =>
          simp only [List.nil_append, containsSub]
          rw [← hp, isPrefixOf_append_self]
          simp
  | cons c cs ih =>
      simp only [List.cons_append, containsSub]
      rw [show cs.append (p ++ b) = cs ++ (p ++ b) from rfl, ih]
      simp

/-- Monotonicity: a substring of a suffix extended on the left stays found. -/
theorem containsSub_cons_of (p : PyStr) (c : Char) (s : PyStr)
    (h : containsSub p s = true) : containsSub p (c :: s) = true := by
  simp [containsSub, h]

/-- A substring found in `s` is found in `a ++ s`. -/
theorem containsSub_append_left (p a s : PyStr)
    (h : containsSub p s = true) : containsSub p (a ++ s) = true := by
  induction a with
  | nil => simpa using h
  | cons c cs ih => simpa [containsSub] using Or.inr ih

theorem splitNl_ne_nil (s : PyStr) : splitNl s ≠ [] := by
  induction s with
  | nil => simp [splitNl]
  | cons c cs ih =>
      simp only [splitNl, List.foldr_cons, splitNlStep]
      split <;> simp

theorem splitNl_nil : splitNl [] = [[]] := rfl

theorem splitNl_cons_nl (cs : PyStr) : splitNl ('\n' :: cs) = [] :: splitNl cs := by
  simp [splitNl, splitNlStep]

theorem splitNl_cons_other (c : Char) (cs : PyStr) (h : ¬ c = '\n') :
    splitNl (c :: cs) = (c :: (splitNl cs).headD []) :: (splitNl cs).tail := by
  simp [splitNl, splitNlStep, h]

/-- Folding the split step over `a` starting from a non-initial accumulator
`p :: ps` glues `p` onto the last part of `splitNl a`. -/
theorem foldr_splitNlStep_cons (a : PyStr) (p : PyStr) (ps : List PyStr) :
    a.foldr splitNlStep (p :: ps) =
      ((splitNl a).dropLast ++ [(splitNl a).getLastD [] ++ p]) ++ ps := by
  induction a with
  | nil => simp [splitNl]
  | cons c cs ih =>
      by_cases hc : c = '\n'
      · subst hc
        simp only [List.foldr_cons, splitNlStep, if_pos rfl, ih, splitNl_cons_nl]
        rcases hsa : splitNl cs with _ | ⟨q, qs⟩
        · exact absurd hsa (splitNl_ne_nil cs)
        · simp
      · simp only [List.foldr_cons, splitNlStep, if_neg hc, splitNl_cons_other c cs hc]
        rcases hsa : splitNl cs with _ | ⟨q, qs⟩
        · exact absurd hsa (splitNl_ne_nil cs)
        · rcases qs with _ | ⟨q', qs'⟩
          · simp [ih, hsa]
          · simp only [ih, hsa]
            simp [List.dropLast_append_cons]

/-- `split("\n")` over a concatenation: all complete parts of `a`, then the
tail of `a` glued to the head of the split of `b`, then the rest of `b`. -/
theorem splitNl_append (a b : PyStr) :
    splitNl (a ++ b) =
      (splitNl a).dropLast ++
        (((splitNl a).getLastD [] ++ (splitNl b).headD []) :: (splitNl b).tail) := by
  have hfold : splitNl (a ++ b) = a.foldr splitNlStep (splitNl b) := by
    simp [splitNl, List.foldr_append]
  rcases hb : splitNl b with _ | ⟨p, ps⟩
  · exact absurd hb (splitNl_ne_nil b)
  · rw [hfold, hb, foldr_splitNlStep_cons]
    simp

theorem numberNonBlank_append (n : Nat) (ps qs : List PyStr) :
    numberNonBlank n (ps ++ qs) =
      numberNonBlank n ps ++ numberNonBlank (n + ps.length) qs := by
  induction ps generalizing n with
  | nil => simp [numberNonBlank]
  | cons p ps ih =>
      simp only [List.cons_append, numberNonBlank, ih, List.length_cons]
      have harith : n + (ps.length + 1) = n + 1 + ps.length := by omega
      rw [harith]
      split <;> simp [show ps.append qs = ps ++ qs from rfl, ih (n + 1)]

theorem not_nl_mem_splitNl (s : PyStr) : ∀ p ∈ splitNl s, '\n' ∉ p := by
  induction s with
  | nil => intro p hp; simp [splitNl] at hp; simp [hp]
  | cons c cs ih =>
      obtain ⟨q, qs, hs⟩ := List.exists_cons_of_ne_nil (splitNl_ne_nil cs)
      by_cases hc : c = '\n'
      · subst hc
        rw [splitNl_cons_nl]
        intro p hp
        rcases List.mem_cons.mp hp with rfl | hp'
        · simp
        · exact ih p hp'
      · rw [splitNl_cons_other c cs hc, hs]
        intro p hp
        rcases List.mem_cons.mp hp with rfl | hp'
        · have hq := ih q (by rw [hs]; exact List.mem_cons_self q qs)
          simp only [List.headD_cons]
          intro hmem
          rcases List.mem_cons.mp hmem with h1 | h2
          · exact hc h1.symm
          · exact hq h2
        · exact ih p (by rw [hs]; exact List.mem_cons_of_mem q hp')

theorem splitNl_of_no_nl (p : PyStr) (h : '\n' ∉ p) : splitNl p = [p] := by
  induction p with
  | nil => rfl
  | cons c cs ih =>
      have hc : ¬ c = '\n' := fun he => h (he ▸ List.mem_cons_self c cs)
      have hcs : '\n' ∉ cs := fun hm => h (List.mem_cons_of_mem c hm)
      rw [splitNl_cons_other c cs hc, ih hcs]
      simp

theorem getLastD_append_cons (xs ys : List PyStr) (y d : PyStr) :
    (xs ++ y :: ys).getLastD d = (y :: ys).getLastD d := by
  induction xs generalizing d with
  | nil => rfl
  | cons x xs ih =>
      rw [List.cons_append, List.getLastD_cons, ih x]
      rw [List.getLastD_cons, List.getLastD_cons]

/-- Splitting the buffer extended by a chunk: since the buffer is the last
part of the text split so far, it contains no newline, and the split of
`buffer ++ chunk` glues the buffer onto the chunk's first part. -/
theorem splitNl_buffer_append (s c : PyStr) :
    splitNl ((splitNl s).getLastD [] ++ c) =
      ((splitNl s).getLastD [] ++ (splitNl c).headD []) :: (splitNl c).tail := by
  have hlast : '\n' ∉ (splitNl s).getLastD [] := by
    obtain ⟨q, qs, hs⟩ := List.exists_cons_of_ne_nil (splitNl_ne_nil s)
    rw [hs, List.getLastD_cons]
    exact not_nl_mem_splitNl s (qs.getLastD q)
      (by rw [hs]; exact List.getLastD_mem_cons qs q)
  rw [splitNl_append, splitNl_of_no_nl _ hlast]
  simp

theorem fanInv_init : fanInv [] ⟨[], 0, []⟩ := by
  refine ⟨rfl, rfl, rfl⟩

theorem fanInv_feedChunk (s c : PyStr) (st : FanAcc) (h : fanInv s st) :
    fanInv (s ++ c) (feedChunk st c) := by
  obtain ⟨hbuf, hnum, hlines⟩ := h
  have hsplit := splitNl_append s c
  have hbc : splitNl (st.buffer ++ c) =
      ((splitNl s).getLastD [] ++ (splitNl c).headD []) :: (splitNl c).tail := by
    rw [hbuf]; exact splitNl_buffer_append s c
  have hlen : 0 < (splitNl s).length := List.length_pos.mpr (splitNl_ne_nil s)
  refine ⟨?_, ?_, ?_⟩
  · rw [feedChunk, hbc, hsplit]
    rw [getLastD_append_cons]
  · rw [feedChunk, hbc, hsplit, hnum]
    simp only [List.length_cons, List.length_append, List.length_dropLast]
    omega
  · rw [feedChunk, hbc, hsplit, hlines, hnum]
    rw [List.dropLast_append_cons, numberNonBlank_append]
    have h0 : (0 : Nat) + (splitNl s).dropLast.length = (splitNl s).length - 1 := by
      simp only [List.length_dropLast]; omega
    rw [h0]

theorem fanInv_foldl (chunks : List PyStr) :
    ∀ (s : PyStr) (st : FanAcc), fanInv s st →
      fanInv (s ++ joinAll chunks) (chunks.foldl feedChunk st) := by
  induction chunks with
  | nil => intro s st h; simpa [joinAll] using h
  | cons c cs ih =>
      intro s st h
      have h1 := fanInv_feedChunk s c st h
      have h2 := ih (s ++ c) (feedChunk st c) h1
      simpa [joinAll, List.append_assoc] using h2

/-- **Line framing is chunk-independent**: the fan-out loop over any chunked
upstream sees exactly the non-blank parts of the joined text split on
newlines, numbered by their 1-based position among all parts — a final part
with no trailing newline included. -/
theorem fanLines_eq_framedOfText (chunks : List PyStr) :
    fanLines chunks = framedOfText (joinAll chunks) := by
  have hinv := fanInv_foldl chunks [] ⟨[], 0, []⟩ fanInv_init
  rw [List.nil_append] at hinv
  obtain ⟨hbuf, hnum, hlines⟩ := hinv
  set st := chunks.foldl feedChunk ⟨[], 0, []⟩ with hst
  obtain ⟨q, qs, hs⟩ := List.exists_cons_of_ne_nil (splitNl_ne_nil (joinAll chunks))
  have hsplit_decomp : splitNl (joinAll chunks) =
      (splitNl (joinAll chunks)).dropLast ++ [(splitNl (joinAll chunks)).getLastD []] := by
    rw [hs]
    rw [show ((q :: qs).getLastD []) = (q :: qs).getLast (by simp) from ?_]
    · exact (List.dropLast_append_getLast (by simp)).symm
    · rw [List.getLast_eq_getLastD, List.getLastD_cons]
  rw [fanLines, framedOfText, finishFan, hbuf, hlines, hnum]
  rw [hsplit_decomp, numberNonBlank_append, ← hsplit_decomp]
  have hlen : (splitNl (joinAll chunks)).dropLast.length =
      (splitNl (joinAll chunks)).length - 1 := by
    simp only [List.length_dropLast]
  rw [hlen]
  by_cases hb : isBlank (((splitNl (joinAll chunks)).getLast?).getD []) = true
  · simp [hb, numberNonBlank]
  · simp [hb, numberNonBlank]

theorem lookupKey_cons (kv : PyStr × Json) (d : Obj) (k : PyStr) :
    lookupKey (kv :: d) k = if kv.1 = k then some kv.2 else lookupKey d k := by
  by_cases hk : kv.1 = k
  · simp [lookupKey, List.find?_cons_of_pos, hk]
  · rw [if_neg hk]
    simp only [lookupKey]
    rw [List.find?_cons_of_neg]
    simpa using hk

theorem keyMem_cons (kv : PyStr × Json) (d : Obj) (k : PyStr) :
    keyMem k (kv :: d) = (kv.1 == k || keyMem k d) := by
  simp [keyMem]

theorem keyMem_eq_isSome_lookupKey (k : PyStr) (d : Obj) :
    keyMem k d = (lookupKey d k).isSome := by
  induction d with
  | nil => rfl
  | cons kv d ih =>
      rw [keyMem_cons, lookupKey_cons]
      by_cases hk : kv.1 = k
      · simp [hk]
      · simp only [if_neg hk, ← ih]
        simp [hk]

theorem lookupKey_map_merge (u a : Obj) (k : PyStr) :
    lookupKey (u.map (fun kv =>
        match lookupKey a kv.1 with
        | some v => (kv.1, v)
        | none => kv)) k =
      match lookupKey u k with
      | none => none
      | some v =>
          some (match lookupKey a k with
                | some w => w
                | none => v) := by
  induction u with
  | nil => rfl
  | cons kv u ih =>
      rw [List.map_cons]
      by_cases hk : kv.1 = k
      · subst hk
        cases ha : lookupKey a kv.1 with
        | none => simp [ha, lookupKey_cons]
        | some w => simp [ha, lookupKey_cons]
      · cases ha : lookupKey a kv.1 <;>
          simp [ha, lookupKey_cons, if_neg hk, ih]

theorem lookupKey_filter_notMem (u a : Obj) (k : PyStr) :
    lookupKey (a.filter (fun kv => ! keyMem kv.1 u)) k =
      if keyMem k u then none else lookupKey a k := by
  induction a with
  | nil => simp [lookupKey]
  | cons kv a ih =>
      by_cases hk : kv.1 = k
      · subst hk
        by_cases hm : keyMem kv.1 u
        · rw [List.filter_cons, if_neg (by simp [hm]), ih, if_pos hm, if_pos hm]
        · rw [List.filter_cons, if_pos (by simp [hm]), lookupKey_cons, if_pos rfl,
            if_neg hm, lookupKey_cons, if_pos rfl]
      · by_cases hm : keyMem kv.1 u
        · rw [List.filter_cons, if_neg (by simp [hm]), ih, lookupKey_cons, if_neg hk]
        · rw [List.filter_cons, if_pos (by simp [hm]), lookupKey_cons, if_neg hk, ih,
            lookupKey_cons, if_neg hk]

theorem optionMap_or {A B : Type} (f : A → B) (o1 o2 : Option A) :
    Option.map f (o1.or o2) = (Option.map f o1).or (Option.map f o2) := by
  cases o1 <;> rfl

/-- **Caller args win on key conflict**: looking a key up in `{**u, **a}`
prefers `a`'s binding and falls back to `u`'s. -/
theorem lookupKey_dictMerge (u a : Obj) (k : PyStr) :
    lookupKey (dictMerge u a) k = (lookupKey a k).or (lookupKey u k) := by
  have hsplit : lookupKey (dictMerge u a) k =
      (lookupKey (u.map (fun kv =>
          match lookupKey a kv.1 with
          | some v => (kv.1, v)
          | none => kv)) k).or
        (lookupKey (a.filter (fun kv => ! keyMem kv.1 u)) k) := by
    rw [dictMerge]
    simp only [lookupKey, List.find?_append, optionMap_or]
  rw [hsplit, lookupKey_map_merge, lookupKey_filter_notMem, keyMem_eq_isSome_lookupKey]
  cases hu : lookupKey u k <;> cases ha : lookupKey a k <;> simp [Option.or]

/-!
## Substring infrastructure for the error-message claims
-/

theorem isPrefixOf_iff_exists (p s : PyStr) :
    p.isPrefixOf s = true ↔ ∃ b, s = p ++ b := by
  induction p generalizing s with
  | nil => simp [List.isPrefixOf]
  | cons c cs ih =>
      cases s with
      | nil => simp [List.isPrefixOf]
      | cons d ds =>
          simp only [List.isPrefixOf, Bool.and_eq_true, beq_iff_eq, ih, List.cons_append,
            List.cons.injEq]
          constructor
          · rintro ⟨rfl, b, rfl⟩; exact ⟨b, rfl, rfl⟩
          · rintro ⟨b, rfl, rfl⟩; exact ⟨rfl, b, rfl⟩

/-- `containsSub` finds exactly the contiguous substrings. -/
theorem containsSub_iff (p s : PyStr) :
    containsSub p s = true ↔ ∃ a b, s = a ++ (p ++ b) := by
  induction s with
  | nil =>
      simp only [containsSub, isPrefixOf_iff_exists]
      constructor
      · rintro ⟨b, hb⟩; exact ⟨[], b, hb⟩
      · rintro ⟨a, b, hab⟩
        rcases a with _ | ⟨x, xs⟩
        · exact ⟨b, hab⟩
        · simp at hab
  | cons c rest ih =>
      simp only [containsSub, Bool.or_eq_true, isPrefixOf_iff_exists, ih]
      constructor
      · rintro (⟨b, hb⟩ | ⟨a, b, hab⟩)
        · exact ⟨[], b, hb⟩
        · exact ⟨c :: a, b, by simp [hab]⟩
      · rintro ⟨a, b, hab⟩
        rcases a with _ | ⟨x, xs⟩
        · exact Or.inl ⟨b, hab⟩
        · rw [List.cons_append] at hab
          injection hab with h1 h2
          exact Or.inr ⟨xs, b, h2⟩

theorem containsSub_trans (p q s : PyStr) (h1 : containsSub p q = true)
    (h2 : containsSub q s = true) : containsSub p s = true := by
  rw [containsSub_iff] at h1 h2 ⊢
  obtain ⟨a, b, rfl⟩ := h1
  obtain ⟨c, d, rfl⟩ := h2
  exact ⟨c ++ a, b ++ d, by simp⟩

theorem containsSub_refl (p : PyStr) : containsSub p p = true := by
  rw [containsSub_iff]; exact ⟨[], [], by simp⟩

theorem containsSub_self_append (p b : PyStr) : containsSub p (p ++ b) = true := by
  rw [containsSub_iff]; exact ⟨[], b, rfl⟩

/-- Every joined part occurs inside `"\n".join(parts)`. -/
theorem containsSub_joinNl_of_mem (x : PyStr) (parts : List PyStr)
    (hx : x ∈ parts) : containsSub x (joinNl parts) = true := by
  induction parts with
  | nil => cases hx
  | cons p rest ih =>
      rcases List.mem_cons.mp hx with rfl | hx'
      · cases rest with
        | nil => exact containsSub_refl x
        | cons q qs => exact containsSub_self_append x ('\n' :: joinNl (q :: qs))
      · cases rest with
        | nil => cases hx'
        | cons q qs =>
            have h := ih hx'
            calc containsSub x (joinNl (p :: q :: qs))
                = containsSub x (p ++ '\n' :: joinNl (q :: qs)) := rfl
              _ = true := containsSub_append_left x p _
                    (containsSub_cons_of x '\n' _ h)

/-!
## Claim theorems
-/

theorem toolStageSingle_trace (parse : PyStr → Option Json)
    (caller : Obj → Except PyErr ToolResult) (args : Obj) (chunks : List PyStr) :
    (toolStageSingle parse caller args chunks).1 =
      [singleEffectiveArgs parse args chunks] := by
  rw [toolStageSingle]
  cases caller (singleEffectiveArgs parse args chunks) <;> rfl

theorem singleEffectiveArgs_obj (parse : PyStr → Option Json) (args : Obj)
    (chunks : List PyStr) (u : Obj)
    (hne : (pyStrip (joinAll chunks)).isEmpty = false)
    (hp : parse (pyStrip (joinAll chunks)) = some (.obj u)) :
    singleEffectiveArgs parse args chunks = dictMerge u args := by
  rw [singleEffectiveArgs]
  simp only [hne, Bool.false_eq_true, if_false, hp]

theorem singleEffectiveArgs_nonObj (parse : PyStr → Option Json) (args : Obj)
    (chunks : List PyStr) (v : Json)
    (hne : (pyStrip (joinAll chunks)).isEmpty = false)
    (hp : parse (pyStrip (joinAll chunks)) = some v) (hv : v.isObj = false) :
    singleEffectiveArgs parse args chunks = bindInput args v := by
  rw [singleEffectiveArgs]
  simp only [hne, Bool.false_eq_true, if_false, hp]
  cases v <;> simp_all [Json.isObj]

theorem singleEffectiveArgs_noParse (parse : PyStr → Option Json) (args : Obj)
    (chunks : List PyStr)
    (hne : (pyStrip (joinAll chunks)).isEmpty = false)
    (hp : parse (pyStrip (joinAll chunks)) = none) :
    singleEffectiveArgs parse args chunks =
      bindInput args (.str (pyStrip (joinAll chunks))) := by
  rw [singleEffectiveArgs]
  simp only [hne, Bool.false_eq_true, if_false, hp]

/-- **C2** — For every non-fan-out ToolStage with caller args `A` and
non-empty trimmed upstream text: a JSON object `U` calls the tool with
`{**U, **A}` (`A` wins every key conflict); a non-object JSON value binds to
`"input"` unless `A` already has that key; unparseable text binds the raw
trimmed string to `"input"` under the same precedence rule. -/
theorem claim_C2_nonfanout_arg_binding (parse : PyStr → Option Json)
    (caller : Obj → Except PyErr ToolResult) (args : Obj) (chunks : List PyStr)
    (hne : (pyStrip (joinAll chunks)).isEmpty = false) :
    (∀ u, parse (pyStrip (joinAll chunks)) = some (.obj u) →
      (toolStageSingle parse caller args chunks).1 = [dictMerge u args] ∧
      ∀ k, lookupKey (dictMerge u args) k = (lookupKey args k).or (lookupKey u k)) ∧
    (∀ v, parse (pyStrip (joinAll chunks)) = some v → v.isObj = false →
      (toolStageSingle parse caller args chunks).1 =
        [if keyMem (("input").toList) args then args
         else args ++ [((("input").toList), v)]]) ∧
    (parse (pyStrip (joinAll chunks)) = none →
      (toolStageSingle parse caller args chunks).1 =
        [if keyMem (("input").toList) args then args
         else args ++ [((("input").toList), .str (pyStrip (joinAll chunks)))]]) := by
  refine ⟨fun u hp => ⟨?_, fun k => lookupKey_dictMerge u args k⟩, fun v hp hv => ?_, fun hp => ?_⟩
  · rw [toolStageSingle_trace, singleEffectiveArgs_obj parse args chunks u hne hp]
  · rw [toolStageSingle_trace, singleEffectiveArgs_nonObj parse args chunks v hne hp hv,
      bindInput]
  · rw [toolStageSingle_trace, singleEffectiveArgs_noParse parse args chunks hne hp,
      bindInput]

/-- **C10** — For every non-fan-out ToolStage whose upstream joins to empty
or whitespace-only text — in particular the first stage of a pipeline, whose
upstream is always empty — the tool is invoked with exactly the caller args:
no `"input"` key is added and no merge happens. -/
theorem claim_C10_empty_upstream_args (parse : PyStr → Option Json)
    (caller : Obj → Except PyErr ToolResult) (args : Obj) (chunks : List PyStr)
    (hblank : (pyStrip (joinAll chunks)).isEmpty = true) :
    (toolStageSingle parse caller args chunks).1 = [args] ∧
    (∀ (env : EngineEnv) (t : ToolStageM) (rest : List PStage),
      t.forEach = false →
      (executePipeline env (PStage.tool t :: rest)).1.head? =
        some (Event.toolCall t.server t.name t.args)) := by
  constructor
  · rw [toolStageSingle_trace, singleEffectiveArgs]
    simp [hblank]
  · intro env t rest hfe
    have hargs : singleEffectiveArgs env.parse t.args [] = t.args := by
      rw [singleEffectiveArgs]; simp [joinAll, pyStrip]
    rw [executePipeline, runStages]
    simp only [hfe, toolStageRun, if_false, Bool.false_eq_true]
    rw [toolStageSingle, hargs]
    cases env.caller t.server t.name t.args <;> simp

/-- Witness for C2 at a concrete input: upstream `{"b":2}` with caller args
`{"a":1, "b":9}` calls the tool with the merge in which the caller's `b`
wins. -/
theorem claim_C2_witness :
    (toolStageSingle parseW callerW
        [(("a").toList, .num 1), (("b").toList, .num 9)]
        [("\x7b\"b\":2\x7d").toList]).1 =
      [dictMerge [(("b").toList, .num 2)]
        [(("a").toList, .num 1), (("b").toList, .num 9)]] ∧
    lookupKey (dictMerge [(("b").toList, .num 2)]
        [(("a").toList, .num 1), (("b").toList, .num 9)]) (("b").toList) =
      some (.num 9) := by
  have h := claim_C2_nonfanout_arg_binding parseW callerW
    [(("a").toList, .num 1), (("b").toList, .num 9)]
    [("\x7b\"b\":2\x7d").toList] (by rfl)
  have h1 := h.1 [(("b").toList, .num 2)] (by rfl)
  exact ⟨h1.1, (h1.2 (("b").toList)).trans rfl⟩

/-- Witness for C10 at a concrete input: a whitespace-only upstream leaves
the args untouched, and a pipeline's first tool stage is called with its
declared args. -/
theorem claim_C10_witness :
    (toolStageSingle parseW callerW [(("a").toList, .num 1)]
        [(" \n\t").toList]).1 = [[(("a").toList, .num 1)]] := by
  have h := claim_C10_empty_upstream_args parseW callerW
    [(("a").toList, .num 1)] [(" \n\t").toList] (by rfl)
  exact h.1

/-- **C5** — A CommandStage whose child terminates within the timeout fails
iff the exit code is non-zero AND stripped stdout is empty AND stripped
stderr is non-empty; the stderr text appears in the error message; a non-zero
exit with non-empty stdout produces no error and the stage yields that
stdout. -/
theorem claim_C5_shell_exit_rule (cmd : PyStr) (t : ℚ) (rc : Int)
    (out err : PyStr) :
    ((∃ e, shellResult cmd t (.completed rc out err) = .error e) ↔
      (rc ≠ 0 ∧ pyStrip out = [] ∧ pyStrip err ≠ [])) ∧
    (∀ e, shellResult cmd t (.completed rc out err) = .error e →
      containsSub (pyStrip err) e.msg = true) ∧
    (rc ≠ 0 → pyStrip out ≠ [] →
      shellResult cmd t (.completed rc out err) = .ok (splitKeepEnds out)) := by
  refine ⟨⟨?_, ?_⟩, ?_, ?_⟩
  · rintro ⟨e, he⟩
    rw [shellResult] at he
    by_cases hc : (rc != 0 && (pyStrip out).isEmpty && !(pyStrip err).isEmpty) = true
    · simp only [bne_iff_ne, ne_eq, Bool.and_eq_true, Bool.not_eq_true',
        List.isEmpty_iff, List.isEmpty_eq_false] at hc
      exact ⟨hc.1.1, hc.1.2, by simpa using hc.2⟩
    · rw [if_neg hc] at he; cases he
  · rintro ⟨h1, h2, h3⟩
    rw [shellResult, if_pos]
    · exact ⟨_, rfl⟩
    · simp only [Bool.and_eq_true, bne_iff_ne, ne_eq, List.isEmpty_iff,
        Bool.not_eq_true', List.isEmpty_eq_false]
      exact ⟨⟨h1, h2⟩, by simpa using h3⟩
  · intro e he
    rw [shellResult] at he
    by_cases hc : (rc != 0 && (pyStrip out).isEmpty && !(pyStrip err).isEmpty) = true
    · rw [if_pos hc] at he
      injection he with he'
      rw [← he']
      simp only [PyErr.msg, cmdFailedMsg]
      rw [containsSub_iff]
      refine ⟨("Command '").toList ++ cmd ++ ("' failed with exit code ").toList ++
        intChars rc ++ (". Stderr: ").toList, [], by simp⟩
    · rw [if_neg hc] at he; cases he
  · intro h1 h2
    rw [shellResult, if_neg]
    simp only [Bool.and_eq_true, not_and, Bool.not_eq_true', List.isEmpty_eq_false]
    intro hrc
    simp only [List.isEmpty_iff] at hrc ⊢
    intro hout
    exact absurd hrc.2 h2

/-- Witness for C5: `jq` exiting 2 with blank stdout and stderr ` boom `
fails with the stderr text in the message; `grep` exiting 1 with stdout
continues with that stdout. -/
theorem claim_C5_witness :
    (∃ e, shellResult (("jq").toList) 30
        (.completed 2 ((" ").toList) ((" boom ").toList)) = .error e ∧
      containsSub (("boom").toList) e.msg = true) ∧
    shellResult (("grep").toList) 30
        (.completed 1 (("match\n").toList) (("").toList)) =
      .ok (splitKeepEnds (("match\n").toList)) := by
  have h1 := claim_C5_shell_exit_rule (("jq").toList) 30 2
    ((" ").toList) ((" boom ").toList)
  have h2 := claim_C5_shell_exit_rule (("grep").toList) 30 1
    (("match\n").toList) (("").toList)
  constructor
  · obtain ⟨e, he⟩ := h1.1.mpr ⟨by decide, by decide, by decide⟩
    exact ⟨e, he, h1.2.1 e he⟩
  · exact h2.2.2 (by decide) (by decide)

/-- **C3, as stated, is false** — a non-fan-out tool result carrying two text
items `"a"` and `"b"` makes the stage produce `"a"` (the first payload), not
the concatenation `"ab"` the claim requires. -/
theorem claim_C3_counterexample :
    (toolStageSingle parseW
        (fun _ => .ok ⟨some [ContentItem.textItem (("a").toList),
                            ContentItem.textItem (("b").toList)],
                       ("repr").toList⟩)
        [] []).2 = .ok (("a").toList) ∧
    (("a").toList : PyStr) ≠ ("a").toList ++ ("b").toList := by
  exact ⟨rfl, by decide⟩

theorem findSome?_text_first (pre post : List ContentItem) (t : PyStr)
    (hpre : ∀ i ∈ pre, i = ContentItem.noText) :
    (pre ++ ContentItem.textItem t :: post).findSome? (fun i =>
      match i with
      | .textItem t' => some t'
      | .noText => none) = some t := by
  induction pre with
  | nil => simp [List.findSome?]
  | cons i pre ih =>
      have hi := hpre i (List.mem_cons_self i pre)
      subst hi
      simpa [List.findSome?] using
        ih (fun j hj => hpre j (List.mem_cons_of_mem _ hj))

/-- **C3, amended** — the non-fan-out stage produces the text payload of the
*first* content item that carries one; when the result has no content
sequence, or no item carries text, it produces the stringified result. -/
theorem claim_C3_amended_first_text (parse : PyStr → Option Json)
    (caller : Obj → Except PyErr ToolResult) (args : Obj) (chunks : List PyStr)
    (r : ToolResult)
    (hc : caller (singleEffectiveArgs parse args chunks) = .ok r) :
    (toolStageSingle parse caller args chunks).2 = .ok (extractFirstText r) ∧
    (∀ pre t post, r.content = some (pre ++ ContentItem.textItem t :: post) →
      (∀ i ∈ pre, i = ContentItem.noText) → extractFirstText r = t) ∧
    (r.content = none → extractFirstText r = r.strRepr) ∧
    (∀ items, r.content = some items → (∀ i ∈ items, i = ContentItem.noText) →
      extractFirstText r = r.strRepr) := by
  refine ⟨?_, ?_, ?_, ?_⟩
  · rw [toolStageSingle, hc]
  · intro pre t post hcont hpre
    simp only [extractFirstText, hcont]
    rw [findSome?_text_first pre post t hpre]
  · intro hcont
    rw [extractFirstText, hcont]
  · intro items hcont hall
    simp only [extractFirstText, hcont]
    have hnone : ∀ its : List ContentItem, (∀ i ∈ its, i = ContentItem.noText) →
        its.findSome? (fun i =>
          match i with
          | .textItem t' => some t'
          | .noText => none) = none := by
      intro its
      induction its with
      | nil => intro _; rfl
      | cons i its ih =>
          intro hall'
          have hi := hall' i (List.mem_cons_self i its)
          subst hi
          simpa [List.findSome?] using
            ih (fun j hj => hall' j (List.mem_cons_of_mem _ hj))
    rw [hnone items hall]

/-- Witness for the amended C3: a result with a textless item before the
first text item `"ok"` produces `"ok"`; a result with no content produces
`str(result)`. -/
theorem claim_C3_witness :
    (toolStageSingle parseW
        (fun _ => .ok ⟨some [ContentItem.noText,
                             ContentItem.textItem (("ok").toList)],
                       ("repr").toList⟩) [] []).2 = .ok (("ok").toList) ∧
    (toolStageSingle parseW (fun _ => .ok ⟨none, ("fallback").toList⟩)
        [] []).2 = .ok (("fallback").toList) := by
  have h1 := claim_C3_amended_first_text parseW
    (fun _ => .ok ⟨some [ContentItem.noText,
                         ContentItem.textItem (("ok").toList)],
                   ("repr").toList⟩) [] []
    ⟨some [ContentItem.noText, ContentItem.textItem (("ok").toList)],
     ("repr").toList⟩ rfl
  have h2 := claim_C3_amended_first_text parseW
    (fun _ => .ok ⟨none, ("fallback").toList⟩) [] []
    ⟨none, ("fallback").toList⟩ rfl
  constructor
  · rw [h1.1]
    rw [h1.2.1 [ContentItem.noText] (("ok").toList) [] rfl
      (by intro i hi; simpa using hi)]
  · rw [h2.1, h2.2.2.1 rfl]

theorem validateCommand_ok_contains (allowed : List PyStr) (cmd : PyStr)
    (h : validateCommand allowed cmd = .ok ()) :
    allowed.contains cmd = true := by
  rw [validateCommand] at h
  by_cases h1 : cmd.isEmpty = true
  · rw [if_pos h1] at h; cases h
  · rw [if_neg h1] at h
    by_cases h2 : allowed.contains cmd = true
    · exact h2
    · rw [if_neg h2] at h; cases h

theorem shellForEachRun_events_allowed (run : List PyStr → PyStr → ℚ → RunOutcome)
    (cmdList : List PyStr) (cmd : PyStr) (t : ℚ) (allowed : List PyStr)
    (hcmd : allowed.contains cmd = true) :
    ∀ (ls : List (Nat × PyStr)),
      ∀ ev ∈ (shellForEachRun run cmdList cmd t ls).1, eventAllowed allowed ev := by
  intro ls
  induction ls with
  | nil => intro ev hev; cases hev
  | cons nl rest ih =>
      intro ev hev
      obtain ⟨n, l⟩ := nl
      cases hres : shellResult cmd t (run cmdList (l ++ ['\n']) t) with
      | error e =>
          simp only [shellForEachRun, hres] at hev
          rcases List.mem_cons.mp hev with rfl | h'
          · exact hcmd
          · cases h'
      | ok outLines =>
          simp only [shellForEachRun, hres] at hev
          rcases List.mem_cons.mp hev with rfl | h'
          · exact hcmd
          · exact ih ev h'

theorem shellStageGo_events_allowed
    (run : List PyStr → PyStr → ℚ → RunOutcome) (bwrapPrefix : List PyStr)
    (t : ℚ) (cmd : PyStr) (args : List PyStr) (fe : Bool) (up : Pulled)
    (allowed : List PyStr)
    (hup : ∀ ev ∈ up.events, eventAllowed allowed ev)
    (hcmd : allowed.contains cmd = true) :
    ∀ ev ∈ (shellStageGo run bwrapPrefix t cmd args fe up).events,
      eventAllowed allowed ev := by
  intro ev hev
  cases fe with
  | true =>
      cases hd : up.data with
      | error e =>
          simp only [shellStageGo, hd, if_pos] at hev
          exact hup ev hev
      | ok chunks =>
          simp only [shellStageGo, hd, if_pos] at hev
          rcases List.mem_append.mp hev with h' | h'
          · exact hup ev h'
          · exact shellForEachRun_events_allowed run _ cmd _ allowed hcmd _ ev h'
  | false =>
      cases hd : up.data with
      | error e =>
          simp only [shellStageGo, hd, Bool.false_eq_true, if_false] at hev
          rcases List.mem_cons.mp hev with rfl | h'
          · exact hcmd
          · exact hup ev h'
      | ok chunks =>
          simp only [shellStageGo, hd, Bool.false_eq_true, if_false] at hev
          rcases List.mem_cons.mp hev with rfl | h'
          · exact hcmd
          · exact hup ev h'

theorem shellStageDeferred_events_allowed
    (run : List PyStr → PyStr → ℚ → RunOutcome) (bwrapPrefix : List PyStr)
    (dflt : ℚ) (cmd : PyStr) (args : List PyStr) (fe : Bool)
    (timeout : Option ℚ) (up : Pulled) (allowed : List PyStr)
    (hup : ∀ ev ∈ up.events, eventAllowed allowed ev)
    (hcmd : allowed.contains cmd = true) :
    ∀ ev ∈ (shellStageDeferred run bwrapPrefix dflt cmd args fe timeout up).events,
      eventAllowed allowed ev := by
  intro ev hev
  cases timeout with
  | none =>
      rw [shellStageDeferred] at hev
      exact shellStageGo_events_allowed run bwrapPrefix dflt cmd args fe up
        allowed hup hcmd ev hev
  | some t =>
      rw [shellStageDeferred] at hev
      by_cases ht : t ≤ 0
      · rw [if_pos ht] at hev; cases hev
      · rw [if_neg ht] at hev
        exact shellStageGo_events_allowed run bwrapPrefix t cmd args fe up
          allowed hup hcmd ev hev

theorem runStages_events_allowed (env : EngineEnv) :
    ∀ (stages : List PStage) (idx : Nat) (up : Pulled),
      (∀ ev ∈ up.events, eventAllowed env.allowedCommands ev) →
      ∀ ev ∈ (runStages env idx up stages).1, eventAllowed env.allowedCommands ev := by
  intro stages
  induction stages with
  | nil =>
      intro idx up hup ev hev
      rw [runStages] at hev
      exact hup ev hev
  | cons stage rest ih =>
      intro idx up hup ev hev
      cases stage with
      | cmd c =>
          cases hv : validateCommand env.allowedCommands c.command with
          | error e =>
              simp only [runStages, hv] at hev
              cases hev
          | ok u =>
              simp only [runStages, hv] at hev
              exact ih (idx + 1) _
                (shellStageDeferred_events_allowed env.run env.bwrapPrefix
                  env.defaultTimeout c.command c.args c.forEach c.timeout up
                  env.allowedCommands hup
                  (validateCommand_ok_contains _ _ (by rw [hv]))) ev hev
      | tool t =>
          cases hd : up.data with
          | error e =>
              simp only [runStages, hd] at hev
              exact hup ev hev
          | ok chunks =>
              cases hstep : (toolStageRun env t chunks).2 with
              | error e =>
                  simp only [runStages, hd, hstep] at hev
                  rcases List.mem_append.mp hev with h' | h'
                  · exact hup ev h'
                  · simp only [toolStageRun] at h'
                    obtain ⟨a, _, rfl⟩ := List.mem_map.mp h'
                    trivial
              | ok s =>
                  simp only [runStages, hd, hstep] at hev
                  rcases List.mem_append.mp hev with h' | h'
                  · rcases List.mem_append.mp h' with h'' | h''
                    · exact hup ev h''
                    · simp only [toolStageRun] at h''
                      obtain ⟨a, _, rfl⟩ := List.mem_map.mp h''
                      trivial
                  · exact ih (idx + 1) _ (by intro e he; cases he) ev h'
      | preview p =>
          cases hd : up.data with
          | error e =>
              simp only [runStages, hd] at hev
              exact hup ev hev
          | ok chunks =>
              simp only [runStages, hd] at hev
              rcases List.mem_append.mp hev with h' | h'
              · exact hup ev h'
              · exact ih (idx + 1) _ (by intro e he; cases he) ev h'

/-- **C4** — A CommandStage executes only when its command is exactly a
member of the allowlist: every spawn event of any pipeline run carries an
allowlisted command token, and a stage whose command is not in the list fails
with an error naming the allowed commands while spawning nothing at all. -/
theorem claim_C4_command_allowlist (env : EngineEnv) :
    (∀ (stages : List PStage) (ev : Event) (c : PyStr) (cl : List PyStr),
        ev ∈ (executePipeline env stages).1 → ev = Event.spawn c cl →
        env.allowedCommands.contains c = true) ∧
    (∀ (idx : Nat) (up : Pulled) (c : CommandStageM) (rest : List PStage),
        c.command.isEmpty = false →
        env.allowedCommands.contains c.command = false →
        runStages env idx up (PStage.cmd c :: rest) =
          ([], .error (.mk (stageFailedCmdMsg idx
            (notAllowedMsg c.command env.allowedCommands)) none)) ∧
        containsSub (joinCommaSpace env.allowedCommands)
          (stageFailedCmdMsg idx
            (notAllowedMsg c.command env.allowedCommands)) = true) := by
  constructor
  · intro stages ev c cl hev hspawn
    have h := runStages_events_allowed env stages 0 ⟨[], .ok []⟩
      (by intro e he; cases he) ev hev
    rw [hspawn] at h
    exact h
  · intro idx up c rest hne hnotin
    have hval : validateCommand env.allowedCommands c.command =
        .error (.mk (notAllowedMsg c.command env.allowedCommands) none) := by
      rw [validateCommand, if_neg (by rw [hne]; exact Bool.false_ne_true),
        if_neg (by rw [hnotin]; exact Bool.false_ne_true)]
    constructor
    · simp only [runStages, hval, PyErr.msg]
    · rw [containsSub_iff]
      refine ⟨("Stage ").toList ++ natChars (idx + 1) ++
        (" (command) failed: ").toList ++ ("Command '").toList ++ c.command ++
        ("' is not allowed. Allowed commands: ").toList, [], ?_⟩
      simp [stageFailedCmdMsg, notAllowedMsg]

/-- Witness for C4: the stage `{command: "rm", args: ["-rf", "/"]}` fails
naming the allowlist, spawns nothing, and `"rm"` is not in the allowlist. -/
theorem claim_C4_witness :
    runStages envW 0 ⟨[], .ok []⟩
        [PStage.cmd ⟨("rm").toList, [("-rf").toList, ("/").toList], false, none⟩] =
      ([], .error (.mk (stageFailedCmdMsg 0
        (notAllowedMsg (("rm").toList) ALLOWED_COMMANDS)) none)) ∧
    containsSub (joinCommaSpace ALLOWED_COMMANDS)
      (stageFailedCmdMsg 0 (notAllowedMsg (("rm").toList) ALLOWED_COMMANDS)) = true := by
  have h := (claim_C4_command_allowlist envW).2 0 ⟨[], .ok []⟩
    ⟨("rm").toList, [("-rf").toList, ("/").toList], false, none⟩ []
    (by rfl) (by rfl)
  exact h

/-- **C8, as stated, is false** — a CommandStage with `timeout = 0` passes
model validation (`models.py` puts no constraint on `timeout`), enters the
engine, and surfaces as a pipeline execution failure raised when the stage's
generator runs. -/
theorem claim_C8_counterexample :
    validPipeline [PStage.cmd ⟨("grep").toList, [], false, some 0⟩] = true ∧
    (executePipeline envW [PStage.cmd ⟨("grep").toList, [], false, some 0⟩]).2 =
      .error (.mk (pipelineFailedMsg (timeoutNotPositiveMsg 0))
        (some (.mk (timeoutNotPositiveMsg 0) none))) := by
  exact ⟨rfl, rfl⟩

/-- **C8, amended** — a CommandStage with a zero or negative timeout is *not*
rejected by the validation layer (its pydantic model constrains only
`command`); the engine's `shell_stage` raises `timeout must be positive` when
the stage's stream is pulled, and the pipeline surfaces that as an execution
failure. -/
theorem claim_C8_amended_engine_rejects (c : CommandStageM) (t : ℚ)
    (ht : c.timeout = some t) (htle : t ≤ 0)
    (hcmd : 1 ≤ c.command.length) :
    validCommandStage c = true ∧
    (∀ (run : List PyStr → PyStr → ℚ → RunOutcome) (bwrapPrefix : List PyStr)
        (dflt : ℚ) (up : Pulled),
      shellStageDeferred run bwrapPrefix dflt c.command c.args c.forEach
          c.timeout up =
        ⟨[], .error (.mk (timeoutNotPositiveMsg t) none)⟩) ∧
    (∀ env : EngineEnv, env.allowedCommands.contains c.command = true →
      (executePipeline env [PStage.cmd c]).2 =
        .error (.mk (pipelineFailedMsg (timeoutNotPositiveMsg t))
          (some (.mk (timeoutNotPositiveMsg t) none)))) := by
  refine ⟨?_, ?_, ?_⟩
  · rw [validCommandStage]
    simpa using hcmd
  · intro run bwrapPrefix dflt up
    rw [ht, shellStageDeferred, if_pos htle]
  · intro env hin
    have hval : validateCommand env.allowedCommands c.command = .ok () := by
      rw [validateCommand, if_neg ?_, if_pos hin]
      cases hc : c.command with
      | nil => rw [hc] at hcmd; simp at hcmd
      | cons x xs => simp
    rw [executePipeline]
    simp only [runStages, hval, ht, shellStageDeferred, if_pos htle, PyErr.msg]

/-- Witness for the amended C8 at `{command: "grep", timeout: 0}`. -/
theorem claim_C8_witness :
    validCommandStage ⟨("grep").toList, [], false, some 0⟩ = true ∧
    (executePipeline envW [PStage.cmd ⟨("grep").toList, [], false, some 0⟩]).2 =
      .error (.mk (pipelineFailedMsg (timeoutNotPositiveMsg 0))
        (some (.mk (timeoutNotPositiveMsg 0) none))) := by
  have h := claim_C8_amended_engine_rejects
    ⟨("grep").toList, [], false, some 0⟩ 0 rfl (le_refl 0) (by decide)
  exact ⟨h.1, h.2.2 envW (by rfl)⟩

/-- **C9** — After a successful discovery the `(host, port)` pair is cached
in the module globals: any later call of either entry point returns the
cached pair with an empty probe trace, whatever its arguments; and every
successful `discover_toolhive_async` stores exactly the pair it returns.
(A really discovered pair has a non-empty host and a non-zero port, which is
what the Python truthiness test of the cache requires.) -/
theorem claim_C9_discovery_cache (env : DiscoEnv) (st : DiscoSt) (h : PyStr)
    (p : Int) (hh : st.discoveredHost = some h) (hp : st.discoveredPort = some p)
    (hhne : h ≠ []) (hpne : p ≠ 0) :
    (∀ a : DiscoArgs,
      discoverAsync env st a = ([], .ok ((h, p), st)) ∧
      discoverSync env st a = ([], .ok ((h, p), st))) ∧
    (∀ (st₀ : DiscoSt) (a₀ : DiscoArgs) (tr : List (PyStr × Int))
        (hp₀ : PyStr × Int) (st₁ : DiscoSt),
      discoverAsync env st₀ a₀ = (tr, .ok (hp₀, st₁)) →
      st₁.discoveredHost = some hp₀.1 ∧ st₁.discoveredPort = some hp₀.2) := by
  have hcache : (truthyStr st.discoveredHost && truthyInt st.discoveredPort) = true := by
    rw [hh, hp]
    simp [truthyStr, truthyInt, List.isEmpty_eq_false.mpr hhne, hpne]
  constructor
  · intro a
    constructor
    · rw [discoverAsync, if_pos hcache, hh, hp]
      rfl
    · rw [discoverSync, if_pos hcache, hh, hp]
      rfl
  · intro st₀ a₀ tr hp₀ st₁ hdisc
    rw [discoverAsync] at hdisc
    by_cases hc : (truthyStr st₀.discoveredHost && truthyInt st₀.discoveredPort) = true
    · rw [if_pos hc] at hdisc
      obtain ⟨hc1, hc2⟩ := Bool.and_eq_true_iff.mp hc
      cases hh0 : st₀.discoveredHost with
      | none => rw [hh0] at hc1; cases hc1
      | some h0 =>
          cases hp0 : st₀.discoveredPort with
          | none => rw [hp0] at hc2; cases hc2
          | some p0 =>
              rw [hh0, hp0] at hdisc
              simp only [Prod.mk.injEq, Except.ok.injEq, Option.getD_some] at hdisc
              obtain ⟨-, h5, h6⟩ := hdisc
              rw [← h6, ← h5, hh0, hp0]
              exact ⟨rfl, rfl⟩
    · rw [if_neg hc] at hdisc
      by_cases hskip : a₀.skip = true
      · rw [if_pos hskip] at hdisc
        simp only [Prod.mk.injEq, Except.ok.injEq] at hdisc
        obtain ⟨-, h5, h6⟩ := hdisc
        rw [← h6, ← h5]
        exact ⟨rfl, rfl⟩
      · rw [if_neg hskip] at hdisc
        cases hport : a₀.port with
        | some prt =>
            rw [hport] at hdisc
            dsimp only at hdisc
            by_cases hav : env.avail (orStr a₀.host (env.envHost.getD defaultHost)) prt = true
            · rw [if_pos hav] at hdisc
              simp only [Prod.mk.injEq, Except.ok.injEq] at hdisc
              obtain ⟨-, h5, h6⟩ := hdisc
              rw [← h6, ← h5]
              exact ⟨rfl, rfl⟩
            · rw [if_neg hav] at hdisc
              cases hscan : (scanForToolhive env.avail
                  (orStr a₀.host (env.envHost.getD defaultHost))
                  a₀.scanStart a₀.scanEnd).2 with
              | error e =>
                  rw [hscan] at hdisc
                  simp only [Prod.mk.injEq] at hdisc
                  exact absurd hdisc.2 (by simp)
              | ok pFound =>
                  rw [hscan] at hdisc
                  simp only [Prod.mk.injEq, Except.ok.injEq] at hdisc
                  obtain ⟨-, h5, h6⟩ := hdisc
                  rw [← h6, ← h5]
                  exact ⟨rfl, rfl⟩
        | none =>
            rw [hport] at hdisc
            dsimp only at hdisc
            cases hloop : (scanHostsLoop env.avail a₀.scanStart a₀.scanEnd
                (scanCandidates (orStr a₀.host (env.envHost.getD defaultHost)))).2 with
            | error e =>
                rw [hloop] at hdisc
                simp only [Prod.mk.injEq] at hdisc
                exact absurd hdisc.2 (by simp)
            | ok hpp =>
                rw [hloop] at hdisc
                simp only [Prod.mk.injEq, Except.ok.injEq] at hdisc
                obtain ⟨-, h5, h6⟩ := hdisc
                rw [← h6, ← h5]
                exact ⟨rfl, rfl⟩

/-- Witness for C9: with the cache holding `("127.0.0.1", 50123)`, a call
with completely different arguments returns the cached pair, probes nothing,
and leaves the state unchanged. -/
theorem claim_C9_witness :
    discoverAsync ⟨none, fun _ _ => false, false⟩
        ⟨some (("127.0.0.1").toList), some 50123⟩
        ⟨some (("10.0.0.9").toList), some 9999, 50000, 50100, false⟩ =
      ([], .ok (((("127.0.0.1").toList), 50123),
        ⟨some (("127.0.0.1").toList), some 50123⟩)) := by
  have h := claim_C9_discovery_cache ⟨none, fun _ _ => false, false⟩
    ⟨some (("127.0.0.1").toList), some 50123⟩ (("127.0.0.1").toList) 50123
    rfl rfl (by decide) (by decide)
  exact (h.1 ⟨some (("10.0.0.9").toList), some 9999, 50000, 50100, false⟩).1

theorem parseAllLines_ok_of_objects (parse : PyStr → Option Json) (args : Obj) :
    ∀ (nls : List (Nat × PyStr)) (objs : List Obj),
      List.Forall₂ (fun (nl : Nat × PyStr) u => parse nl.2 = some (Json.obj u))
        nls objs →
      ∃ cas, parseAllLines parse args nls = .ok cas ∧
        cas.map (fun pr => pr.2) = objs.map (fun u => dictMerge u args) ∧
        cas.map (fun pr => pr.1) = nls.map (fun pr => pr.1) := by
  intro nls objs hf
  induction hf with
  | nil => exact ⟨[], rfl, rfl, rfl⟩
  | cons hp hrest ih =>
      obtain ⟨cas, hcas, hsnd, hfst⟩ := ih
      rename_i nl u nls' objs'
      refine ⟨(nl.1, dictMerge u args) :: cas, ?_, ?_, ?_⟩
      · rw [parseAllLines, parseFanLine, hp, hcas]
      · simp [hsnd]
      · simp [hfst]

theorem execCallsFrom_all_ok (res : Obj → ToolResult) :
    ∀ (l : List Obj) (total idx : Nat) (done : List ToolResult),
      execCallsFrom (fun a => .ok (res a)) total idx done l =
        (l, .ok (done ++ l.map res)) := by
  intro l
  induction l with
  | nil => intro total idx done; simp [execCallsFrom]
  | cons a rest ih =>
      intro total idx done
      rw [execCallsFrom]
      simp only [ih]
      simp

/-- **C1** — For a fan-out ToolStage dispatched through the batch caller over
an upstream whose non-blank lines all parse as JSON objects: the framing is
chunk-independent (exactly the non-blank parts of the joined text split on
newlines, in order, with a final unterminated line included); exactly one
call is issued per non-blank line, in order, with the line's object merged
with the caller args (caller wins on conflict); and the stage output is the
per-call result texts joined by newline, in input order. -/
theorem claim_C1_fanout_batch (parse : PyStr → Option Json)
    (res : Obj → ToolResult) (server tool : PyStr) (args : Obj)
    (chunks : List PyStr) (objs : List Obj)
    (hparse : List.Forall₂
      (fun (nl : Nat × PyStr) u => parse nl.2 = some (Json.obj u))
      (fanLines chunks) objs) :
    fanLines chunks = framedOfText (joinAll chunks) ∧
    (toolStageForEach parse (some (batchExecuteCalls (fun a => .ok (res a))))
        (fun a => .ok (res a)) server tool args chunks).1 =
      objs.map (fun u => dictMerge u args) ∧
    (toolStageForEach parse (some (batchExecuteCalls (fun a => .ok (res a))))
        (fun a => .ok (res a)) server tool args chunks).2 =
      .ok (joinNl (((objs.map (fun u => dictMerge u args)).map res).flatMap
        extractTexts)) ∧
    (∀ u k, lookupKey (dictMerge u args) k =
      (lookupKey args k).or (lookupKey u k)) := by
  obtain ⟨cas, hcas, hsnd, hfst⟩ :=
    parseAllLines_ok_of_objects parse args (fanLines chunks) objs hparse
  refine ⟨fanLines_eq_framedOfText chunks, ?_, ?_, fun u k => lookupKey_dictMerge u args k⟩
  · rw [toolStageForEach, hcas]
    by_cases hemp : cas.isEmpty = true
    · rw [List.isEmpty_iff] at hemp
      subst hemp
      have : objs = [] := by
        cases objs with
        | nil => rfl
        | cons o os => simp at hsnd
      rw [this]
      simp
    · simp only [hemp, Bool.false_eq_true, if_false]
      rw [batchExecuteCalls, execCallsFrom_all_ok]
      simpa using hsnd
  · rw [toolStageForEach, hcas]
    by_cases hemp : cas.isEmpty = true
    · rw [List.isEmpty_iff] at hemp
      subst hemp
      have : objs = [] := by
        cases objs with
        | nil => rfl
        | cons o os => simp at hsnd
      rw [this]
      simp [joinNl]
    · simp only [hemp, Bool.false_eq_true, if_false]
      rw [batchExecuteCalls, execCallsFrom_all_ok]
      simp only [List.nil_append]
      rw [show cas.map (fun pr => pr.2) = objs.map (fun u => dictMerge u args)
        from hsnd]

/-- Witness for C1: two JSONL records split across a chunk boundary
(`'{"u":1}\n{"v"'` then `':2}'`) yield exactly two calls in order and the
output `"ok\nok"`. -/
theorem claim_C1_witness :
    fanLines [("\x7b\"u\":1\x7d\n\x7b\"v\"").toList, (":2\x7d").toList] =
      framedOfText (joinAll
        [("\x7b\"u\":1\x7d\n\x7b\"v\"").toList, (":2\x7d").toList]) ∧
    (toolStageForEach parseW
        (some (batchExecuteCalls (fun _ => .ok resultW))) (fun _ => .ok resultW)
        (("srv").toList) (("fetch").toList) []
        [("\x7b\"u\":1\x7d\n\x7b\"v\"").toList, (":2\x7d").toList]).1 =
      [[((("u").toList), .num 1)], [((("v").toList), .num 2)]] ∧
    (toolStageForEach parseW
        (some (batchExecuteCalls (fun _ => .ok resultW))) (fun _ => .ok resultW)
        (("srv").toList) (("fetch").toList) []
        [("\x7b\"u\":1\x7d\n\x7b\"v\"").toList, (":2\x7d").toList]).2 =
      .ok (("ok\nok").toList) := by
  have hf : fanLines [("\x7b\"u\":1\x7d\n\x7b\"v\"").toList, (":2\x7d").toList] =
      [(1, ("\x7b\"u\":1\x7d").toList), (2, ("\x7b\"v\":2\x7d").toList)] := by rfl
  have hpar : List.Forall₂
      (fun (nl : Nat × PyStr) u => parseW nl.2 = some (Json.obj u))
      (fanLines [("\x7b\"u\":1\x7d\n\x7b\"v\"").toList, (":2\x7d").toList])
      [[((("u").toList), Json.num 1)], [((("v").toList), Json.num 2)]] := by
    rw [hf]
    exact .cons rfl (.cons rfl .nil)
  have h := claim_C1_fanout_batch parseW (fun _ => resultW)
    (("srv").toList) (("fetch").toList) []
    [("\x7b\"u\":1\x7d\n\x7b\"v\"").toList, (":2\x7d").toList]
    [[((("u").toList), Json.num 1)], [((("v").toList), Json.num 2)]] hpar
  exact ⟨h.1, h.2.1.trans rfl, h.2.2.1.trans rfl⟩

theorem parseAllLines_error_at (parse : PyStr → Option Json) (args : Obj) :
    ∀ (pre : List (Nat × PyStr)) (objsPre : List Obj),
      List.Forall₂ (fun (nl : Nat × PyStr) u => parse nl.2 = some (Json.obj u))
        pre objsPre →
      ∀ (nl : Nat × PyStr) (post : List (Nat × PyStr)) (e : PyErr),
        parseFanLine parse args nl = .error e →
        parseAllLines parse args (pre ++ nl :: post) = .error e := by
  intro pre objsPre hf
  induction hf with
  | nil =>
      intro nl post e he
      rw [List.nil_append, parseAllLines, he]
  | cons hp hrest ih =>
      intro nl post e he
      rename_i nl' u pre' objs'
      rw [List.cons_append, parseAllLines, parseFanLine, hp, ih nl post e he]

theorem toolStageForEach_error (parse : PyStr → Option Json)
    (batchCall : Option (List Obj → List Obj × Except PyErr (List ToolResult)))
    (caller : Obj → Except PyErr ToolResult) (server tool : PyStr) (args : Obj)
    (chunks : List PyStr) (e : PyErr)
    (hp : parseAllLines parse args (fanLines chunks) = .error e) :
    toolStageForEach parse batchCall caller server tool args chunks =
      ([], .error e) := by
  rw [toolStageForEach, hp]

/-- `"Line {n}:"` occurs in the invalid-JSON message. -/
theorem invalidJsonMsg_contains_lineNum (n : Nat) (l : PyStr) :
    containsSub (("Line ").toList ++ natChars n ++ [':'])
      (invalidJsonMsg n l) = true := by
  rw [containsSub_iff]
  refine ⟨[], (" Invalid JSON in for_each mode. Tools with for_each require JSONL input (one JSON object per line). Got: ").toList ++
    l.take 100 ++
    ("... Use jq to structure your data correctly. For example, if the tool needs 'url' parameter: jq -c '.[] | \x7burl: .\x7d'").toList, ?_⟩
  rw [invalidJsonMsg]
  have hsplit : (": Invalid JSON in for_each mode. Tools with for_each require JSONL input (one JSON object per line). Got: ").toList =
      ':' :: (" Invalid JSON in for_each mode. Tools with for_each require JSONL input (one JSON object per line). Got: ").toList := rfl
  rw [hsplit]
  simp

/-- The first 100 characters of the raw line occur in the invalid-JSON
message. -/
theorem invalidJsonMsg_contains_line (n : Nat) (l : PyStr) :
    containsSub (l.take 100) (invalidJsonMsg n l) = true := by
  rw [containsSub_iff]
  exact ⟨("Line ").toList ++ natChars n ++
    (": Invalid JSON in for_each mode. Tools with for_each require JSONL input (one JSON object per line). Got: ").toList,
    ("... Use jq to structure your data correctly. For example, if the tool needs 'url' parameter: jq -c '.[] | \x7burl: .\x7d'").toList,
    by rw [invalidJsonMsg]; simp⟩

/-- The remediation hint occurs in the invalid-JSON message. -/
theorem invalidJsonMsg_contains_hint (n : Nat) (l : PyStr) :
    containsSub (("Use jq to structure your data correctly").toList)
      (invalidJsonMsg n l) = true := by
  rw [invalidJsonMsg]
  simp only [List.append_assoc]
  refine containsSub_append_left _ _ _ (containsSub_append_left _ _ _
    (containsSub_append_left _ _ _ (containsSub_append_left _ _ _ ?_)))
  rfl

/-- `"Line {n}:"` occurs in the non-object message. -/
theorem nonObjectMsg_contains_lineNum (n : Nat) (v : Json) :
    containsSub (("Line ").toList ++ natChars n ++ [':'])
      (nonObjectMsg n v) = true := by
  rw [containsSub_iff]
  refine ⟨[], (" Expected JSON object, got ").toList ++ pyTypeName v ++
    (". Tools require parameter names. Got: ").toList ++ (dumps v).take 100 ++
    ("... Transform your data into objects, e.g.: jq -c '\x7bparam_name: .\x7d'").toList, ?_⟩
  rw [nonObjectMsg]
  have hsplit : (": Expected JSON object, got ").toList =
      ':' :: (" Expected JSON object, got ").toList := rfl
  rw [hsplit]
  simp

/-- The first 100 characters of `json.dumps(parsed_line)` occur in the
non-object message. -/
theorem nonObjectMsg_contains_dumps (n : Nat) (v : Json) :
    containsSub ((dumps v).take 100) (nonObjectMsg n v) = true := by
  rw [containsSub_iff]
  exact ⟨("Line ").toList ++ natChars n ++ (": Expected JSON object, got ").toList ++
    pyTypeName v ++ (". Tools require parameter names. Got: ").toList,
    ("... Transform your data into objects, e.g.: jq -c '\x7bparam_name: .\x7d'").toList,
    by rw [nonObjectMsg]; simp⟩

/-- The remediation hint occurs in the non-object message. -/
theorem nonObjectMsg_contains_hint (n : Nat) (v : Json) :
    containsSub (("Transform your data into objects").toList)
      (nonObjectMsg n v) = true := by
  rw [nonObjectMsg]
  simp only [List.append_assoc]
  refine containsSub_append_left _ _ _ (containsSub_append_left _ _ _
    (containsSub_append_left _ _ _ (containsSub_append_left _ _ _
      (containsSub_append_left _ _ _ (containsSub_append_left _ _ _ ?_)))))
  rfl

/-- **C6, as stated, is false** — the fan-out line `[1,2]` parses to a
non-object value and fails the stage, but its error quotes the first 100
characters of `json.dumps(parsed_line)` (`"[1, 2]"`), not the first 100
characters of the line's content (`"[1,2]"`), which is absent from the
message. -/
theorem claim_C6_counterexample :
    toolStageForEach parseW none callerW (("s").toList) (("t").toList) []
        [("[1,2]\n").toList] =
      ([], .error (.mk (nonObjectMsg 1 (.arr [.num 1, .num 2])) none)) ∧
    containsSub ((("[1,2]").toList).take 100)
      (nonObjectMsg 1 (.arr [.num 1, .num 2])) = false := by
  exact ⟨rfl, rfl⟩

/-- **C6, amended** — if some non-blank line of a fan-out upstream fails to
parse as JSON or parses to a non-object value (all earlier lines parsing as
objects), the stage fails before issuing any tool call, with an error citing
the line's 1-based number and a remediation hint; a parse failure quotes the
first 100 characters of the raw line, a non-object value quotes the first
100 characters of the value re-serialized as JSON. -/
theorem claim_C6_amended_fanout_line_error (parse : PyStr → Option Json)
    (batchCall : Option (List Obj → List Obj × Except PyErr (List ToolResult)))
    (caller : Obj → Except PyErr ToolResult) (server tool : PyStr) (args : Obj)
    (chunks : List PyStr) (pre post : List (Nat × PyStr)) (n : Nat) (l : PyStr)
    (objsPre : List Obj)
    (hsplit : fanLines chunks = pre ++ (n, l) :: post)
    (hpre : List.Forall₂
      (fun (nl : Nat × PyStr) u => parse nl.2 = some (Json.obj u)) pre objsPre) :
    (parse l = none →
      toolStageForEach parse batchCall caller server tool args chunks =
        ([], .error (.mk (invalidJsonMsg n l) none)) ∧
      containsSub (("Line ").toList ++ natChars n ++ [':'])
        (invalidJsonMsg n l) = true ∧
      containsSub (l.take 100) (invalidJsonMsg n l) = true ∧
      containsSub (("Use jq to structure your data correctly").toList)
        (invalidJsonMsg n l) = true) ∧
    (∀ v, parse l = some v → v.isObj = false →
      toolStageForEach parse batchCall caller server tool args chunks =
        ([], .error (.mk (nonObjectMsg n v) none)) ∧
      containsSub (("Line ").toList ++ natChars n ++ [':'])
        (nonObjectMsg n v) = true ∧
      containsSub ((dumps v).take 100) (nonObjectMsg n v) = true ∧
      containsSub (("Transform your data into objects").toList)
        (nonObjectMsg n v) = true) := by
  constructor
  · intro hnone
    have hline : parseFanLine parse args (n, l) =
        .error (.mk (invalidJsonMsg n l) none) := by
      rw [parseFanLine]
      simp only [hnone]
    refine ⟨toolStageForEach_error parse batchCall caller server tool args chunks _
      (by rw [hsplit]; exact parseAllLines_error_at parse args pre objsPre hpre _ post _ hline),
      invalidJsonMsg_contains_lineNum n l, invalidJsonMsg_contains_line n l,
      invalidJsonMsg_contains_hint n l⟩
  · intro v hv hnotObj
    have hline : parseFanLine parse args (n, l) =
        .error (.mk (nonObjectMsg n v) none) := by
      rw [parseFanLine]
      cases v <;> simp_all [Json.isObj]
    refine ⟨toolStageForEach_error parse batchCall caller server tool args chunks _
      (by rw [hsplit]; exact parseAllLines_error_at parse args pre objsPre hpre _ post _ hline),
      nonObjectMsg_contains_lineNum n v, nonObjectMsg_contains_dumps n v,
      nonObjectMsg_contains_hint n v⟩

/-- Witness for the amended C6: upstream `'{"u":1}\nnot-json\n'` (line 2
unparseable) aborts the fan-out with `"Line 2:"` in the message and no tool
call issued. -/
theorem claim_C6_witness :
    toolStageForEach parseW none callerW (("s").toList) (("t").toList) []
        [("\x7b\"u\":1\x7d\nnot-json\n").toList] =
      ([], .error (.mk (invalidJsonMsg 2 (("not-json").toList)) none)) ∧
    containsSub (("Line 2:").toList)
      (invalidJsonMsg 2 (("not-json").toList)) = true := by
  have hf : fanLines [("\x7b\"u\":1\x7d\nnot-json\n").toList] =
      [(1, ("\x7b\"u\":1\x7d").toList)] ++ (2, ("not-json").toList) :: [] := by rfl
  have h := claim_C6_amended_fanout_line_error parseW none callerW
    (("s").toList) (("t").toList) [] [("\x7b\"u\":1\x7d\nnot-json\n").toList]
    [(1, ("\x7b\"u\":1\x7d").toList)] [] 2 (("not-json").toList)
    [[((("u").toList), Json.num 1)]] hf (.cons rfl .nil)
  obtain ⟨h1, h2, -, -⟩ := h.1 rfl
  exact ⟨h1, h2⟩

theorem execCallsFrom_fails_at (call : Obj → Except PyErr ToolResult)
    (total : Nat) :
    ∀ (pre : List Obj) (rs : List ToolResult),
      List.Forall₂ (fun a r => call a = .ok r) pre rs →
      ∀ (idx : Nat) (done : List ToolResult) (bad : Obj) (post : List Obj)
        (e : PyErr),
        call bad = .error e →
        (execCallsFrom call total idx done (pre ++ bad :: post)).2 =
          .error (.mk (batchErrMsg (idx + pre.length + 1) total
            (done.length + pre.length) (total - (idx + pre.length) - 1) e.msg
            ((done ++ rs).flatMap extractTexts)) (some e)) := by
  intro pre rs hf
  induction hf with
  | nil =>
      intro idx done bad post e he
      rw [List.nil_append, execCallsFrom, he]
      simp
  | cons hp hrest ih =>
      intro idx done bad post e he
      rename_i a r pre' rs'
      rw [List.cons_append, execCallsFrom, hp]
      have hstep := ih (idx + 1) (done ++ [r]) bad post e he
      dsimp only
      rw [hstep]
      have h1 : idx + 1 + pre'.length + 1 = idx + (pre'.length + 1) + 1 := by omega
      have h2 : (done ++ [r]).length + pre'.length = done.length + (pre'.length + 1) := by
        simp; omega
      have h3 : total - (idx + 1 + pre'.length) - 1 =
          total - (idx + (pre'.length + 1)) - 1 := by omega
      have h4 : (done ++ [r]) ++ rs' = done ++ (r :: rs') := by simp
      rw [h1, h2, h3, h4]
      simp

theorem batchErrMsg_joinNl_mem (k n completed pending : Nat) (emsg : PyStr)
    (partials : List PyStr) (x : PyStr)
    (hx : x ∈ batchErrParts k n completed pending emsg) :
    containsSub x (batchErrMsg k n completed pending emsg partials) = true := by
  rw [batchErrMsg]
  split
  · exact containsSub_joinNl_of_mem x _ hx
  · exact containsSub_joinNl_of_mem x _ (List.mem_append_left _ hx)

theorem batchErrMsg_contains_item (k n completed pending : Nat) (emsg : PyStr)
    (partials : List PyStr) :
    containsSub (("item ").toList ++ natChars k ++ (" of ").toList ++ natChars n)
      (batchErrMsg k n completed pending emsg partials) = true := by
  have hp1 : containsSub
      (("item ").toList ++ natChars k ++ (" of ").toList ++ natChars n)
      (("Batch tool call failed at item ").toList ++ natChars k ++
        (" of ").toList ++ natChars n ++ (".").toList) = true := by
    rw [containsSub_iff]
    refine ⟨("Batch tool call failed at ").toList, (".").toList, ?_⟩
    have hsplit : ("Batch tool call failed at item ").toList =
        ("Batch tool call failed at ").toList ++ ("item ").toList := rfl
    rw [hsplit]
    simp
  exact containsSub_trans _ _ _ hp1
    (batchErrMsg_joinNl_mem k n completed pending emsg partials _
      (by rw [batchErrParts]; simp))

theorem batchErrMsg_contains_progress (k n completed pending : Nat)
    (emsg : PyStr) (partials : List PyStr) :
    containsSub (natChars completed ++ (" successful, ").toList ++
        natChars pending ++ (" pending").toList)
      (batchErrMsg k n completed pending emsg partials) = true := by
  have hp2 : containsSub
      (natChars completed ++ (" successful, ").toList ++ natChars pending ++
        (" pending").toList)
      (("Completed: ").toList ++ natChars completed ++ (" successful, ").toList ++
        natChars pending ++ (" pending.").toList) = true := by
    rw [containsSub_iff]
    refine ⟨("Completed: ").toList, (".").toList, ?_⟩
    have hsplit : (" pending.").toList = (" pending").toList ++ (".").toList := rfl
    rw [hsplit]
    simp
  exact containsSub_trans _ _ _ hp2
    (batchErrMsg_joinNl_mem k n completed pending emsg partials _
      (by rw [batchErrParts]; simp))

theorem batchErrMsg_contains_partials (k n completed pending : Nat)
    (emsg : PyStr) (partials : List PyStr) :
    ∀ t ∈ partials,
      containsSub t (batchErrMsg k n completed pending emsg partials) = true := by
  intro t ht
  have hnonempty : partials.isEmpty = false := by
    cases partials with
    | nil => cases ht
    | cons x xs => rfl
  have hp4 : containsSub t
      (("Partial results from successful calls:\n").toList ++ joinNl partials) = true :=
    containsSub_append_left t _ _ (containsSub_joinNl_of_mem t partials ht)
  rw [batchErrMsg, if_neg (by rw [hnonempty]; exact Bool.false_ne_true)]
  exact containsSub_trans _ _ _ hp4 (containsSub_joinNl_of_mem _ _ (by simp))

/-- **C7, amended** — the error raised by the batch caller itself reports the
1-indexed failing item of the total, the success and pending counts, and the
text payloads of the successful calls; the fan-out tool stage however unwraps
the cause chain to its root, so the pipeline surfaces only
`Batch tool call failed for {server}/{tool}. Error: {root cause}` (with the
progress-reporting error kept only as the `__cause__`). -/
theorem claim_C7_amended_batch_report (call : Obj → Except PyErr ToolResult)
    (pre post : List Obj) (bad : Obj) (rs : List ToolResult) (e : PyErr)
    (hpre : List.Forall₂ (fun a r => call a = .ok r) pre rs)
    (hbad : call bad = .error e) :
    (batchExecuteCalls call (pre ++ bad :: post)).2 =
      .error (.mk (batchErrMsg (pre.length + 1) (pre.length + (post.length + 1))
        pre.length post.length e.msg (rs.flatMap extractTexts)) (some e)) ∧
    containsSub (("item ").toList ++ natChars (pre.length + 1) ++
        (" of ").toList ++ natChars (pre.length + (post.length + 1)))
      (batchErrMsg (pre.length + 1) (pre.length + (post.length + 1))
        pre.length post.length e.msg (rs.flatMap extractTexts)) = true ∧
    containsSub (natChars pre.length ++ (" successful, ").toList ++
        natChars post.length ++ (" pending").toList)
      (batchErrMsg (pre.length + 1) (pre.length + (post.length + 1))
        pre.length post.length e.msg (rs.flatMap extractTexts)) = true ∧
    (∀ t ∈ rs.flatMap extractTexts,
      containsSub t
        (batchErrMsg (pre.length + 1) (pre.length + (post.length + 1))
          pre.length post.length e.msg (rs.flatMap extractTexts)) = true) ∧
    (∀ (parse : PyStr → Option Json) (server tool : PyStr) (args : Obj)
        (chunks : List PyStr) (cas : List (Nat × Obj)),
      parseAllLines parse args (fanLines chunks) = .ok cas →
      cas.map (fun pr => pr.2) = pre ++ bad :: post →
      cas.isEmpty = false →
      (toolStageForEach parse (some (batchExecuteCalls call)) call
          server tool args chunks).2 =
        .error (.mk
          (("Batch tool call failed for ").toList ++ server ++ '/' :: tool ++
            (". Error: ").toList ++ rootMsg e)
          (some (.mk (batchErrMsg (pre.length + 1)
            (pre.length + (post.length + 1)) pre.length post.length e.msg
            (rs.flatMap extractTexts)) (some e))))) := by
  have hlen : (pre ++ bad :: post).length = pre.length + (post.length + 1) := by
    simp
  have hbatch : (batchExecuteCalls call (pre ++ bad :: post)).2 =
      .error (.mk (batchErrMsg (pre.length + 1) (pre.length + (post.length + 1))
        pre.length post.length e.msg (rs.flatMap extractTexts)) (some e)) := by
    rw [batchExecuteCalls, hlen]
    have h := execCallsFrom_fails_at call (pre.length + (post.length + 1))
      pre rs hpre 0 [] bad post e hbad
    rw [h]
    have h1 : 0 + pre.length + 1 = pre.length + 1 := by omega
    have h2 : ([] : List ToolResult).length + pre.length = pre.length := by simp
    have h3 : pre.length + (post.length + 1) - (0 + pre.length) - 1 = post.length := by
      omega
    rw [h1, h2, h3]
    simp
  refine ⟨hbatch,
    batchErrMsg_contains_item _ _ _ _ _ _,
    batchErrMsg_contains_progress _ _ _ _ _ _,
    batchErrMsg_contains_partials _ _ _ _ _ _,
    ?_⟩
  intro parse server tool args chunks cas hcas hargs hne
  rw [toolStageForEach, hcas]
  simp only [hne, Bool.false_eq_true, if_false]
  rw [hargs, hbatch]
  rfl

/-- **C7, as stated, is false** — in the 5-item fan-out whose 3rd call fails,
the pipeline does fail, but the surfaced error message contains neither
`"item 3 of 5"` nor the success/pending counts nor the partial texts: the
engine's unwrap-to-root-cause loop replaced the batch caller's
progress-reporting message with the root cause. -/
theorem claim_C7_counterexample :
    (∃ e, (executePipeline envC7 pipeC7).2 = .error e) ∧
    containsSub (("item 3 of 5").toList)
      (errMsgOf (executePipeline envC7 pipeC7).2) = false ∧
    containsSub (("2 successful").toList)
      (errMsgOf (executePipeline envC7 pipeC7).2) = false ∧
    containsSub (("2 pending").toList)
      (errMsgOf (executePipeline envC7 pipeC7).2) = false ∧
    containsSub (("API rate limit exceeded").toList)
      (errMsgOf (executePipeline envC7 pipeC7).2) = true := by
  exact ⟨⟨_, rfl⟩, rfl, rfl, rfl, rfl⟩

/-- Witness for the amended C7: 5 calls, 3rd failing — the batch caller's
own error carries "item 3 of 5", "2 successful, 2 pending" and the partial
text "r". -/
theorem claim_C7_witness :
    containsSub (("item 3 of 5").toList)
      (errMsgOf (batchExecuteCalls sessionC7
        [[(("id").toList, .num 1)], [(("id").toList, .num 2)],
         [(("id").toList, .num 3)], [(("id").toList, .num 4)],
         [(("id").toList, .num 5)]]).2) = true ∧
    containsSub (("2 successful, 2 pending").toList)
      (errMsgOf (batchExecuteCalls sessionC7
        [[(("id").toList, .num 1)], [(("id").toList, .num 2)],
         [(("id").toList, .num 3)], [(("id").toList, .num 4)],
         [(("id").toList, .num 5)]]).2) = true := by
  have h := claim_C7_amended_batch_report sessionC7
    [[(("id").toList, Json.num 1)], [(("id").toList, Json.num 2)]]
    [[(("id").toList, Json.num 4)], [(("id").toList, Json.num 5)]]
    [(("id").toList, Json.num 3)]
    [⟨some [ContentItem.textItem (("r").toList)], ("res").toList⟩,
     ⟨some [ContentItem.textItem (("r").toList)], ("res").toList⟩]
    (.mk (("API rate limit exceeded").toList) none)
    (.cons rfl (.cons rfl .nil)) rfl
  constructor
  · rw [show (batchExecuteCalls sessionC7
        [[(("id").toList, Json.num 1)], [(("id").toList, Json.num 2)],
         [(("id").toList, Json.num 3)], [(("id").toList, Json.num 4)],
         [(("id").toList, Json.num 5)]]).2 = _ from h.1]
    exact h.2.1
  · rw [show (batchExecuteCalls sessionC7
        [[(("id").toList, Json.num 1)], [(("id").toList, Json.num 2)],
         [(("id").toList, Json.num 3)], [(("id").toList, Json.num 4)],
         [(("id").toList, Json.num 5)]]).2 = _ from h.1]
    exact h.2.2.1
